import Mathlib

/-!
Verification development for the hitrace-bench trace parser and
filter/point-filter extraction engine.

The definitions in this file are a shallow embedding of the Rust sources:
  * `src/trace.rs`   — trace-line parsing (`TraceMarker`, `Trace`,
    `match_to_trace`, `line_to_trace`, `read_file`, `difference_of_traces`)
  * `src/filter.rs`  — interval filters (`Filter`, `filter_to_duration`)
  * `src/point_filters.rs` — point extraction (`PointFilter`, `Point`,
    the regex dispatch, `remove_duplicates`, `pointfilter_to_point`,
    `parse_lcp_trace`, `parse_fcp_trace`)
  * `src/utils.rs`   — aggregation (`avg_min_max`)

Modelling conventions:
  * Rust `u64` values are `Nat`; wrap-around of release-mode arithmetic is
    written explicitly as `% 2 ^ 64` (resp. two's-complement helpers for the
    `as i64` / `as i32` casts in `difference_of_traces`).
  * A Rust panic (`expect`/`unwrap`/`panic!`) is modelled as `Except.error`
    (or a dedicated `panicked` constructor where a panic must be
    distinguished from a returned `Err`).
  * The regexes of the source are embedded literally as `RE` terms and run
    by a leftmost-first backtracking matcher (`matchRE`), which is the
    match semantics of the Rust `regex` crate for these patterns.  All
    repetition operators in the source regexes apply to single-character
    classes, which the `RE` type mirrors.  Character classes are modelled
    over their ASCII extent.
  * File I/O is out of scope: `read_file` consumes the list of lines of the
    file (the `BufRead::lines` I/O-error branch of the source only logs
    line indices of unreadable lines and is not modelled).
-/

set_option maxRecDepth 100000

namespace HitraceBench

/-! ## Regex engine: leftmost-first backtracking with capture groups -/

/-- Capture store: group index paired with the captured characters.  The
most recent binding of a group is the visible one. -/
def Caps := List (Nat × List Char)

instance : DecidableEq Caps := by
  unfold Caps
  infer_instance

/-- Record a capture for group `n`. -/
def setCap (n : Nat) (v : List Char) (caps : Caps) : Caps :=
  (n, v) :: caps

/-- Look up a capture group, mirroring `Captures::get`. -/
def capGet (caps : Caps) (n : Nat) : Option (List Char) :=
  (List.find? (fun c => c.1 == n) caps).map (fun c => c.2)

/-- Groups `0..maxG` that participated in the match, in index order; this is
`captures.iter().flatten()` of the Rust `regex` crate. -/
def capFlatten (caps : Caps) (maxG : Nat) : List (List Char) :=
  (List.range (maxG + 1)).filterMap (fun i => capGet caps i)

/-- Embedded regular expressions.  Repetitions only ever apply to a
single-character class, exactly as in the source regexes. -/
inductive RE where
  /-- Literal character sequence. -/
  | str (s : List Char)
  /-- Single character of a class (`.`, `\d`, `\s`, `\w`). -/
  | cls (p : Char → Bool)
  /-- Greedy star over a class (`\s*`, `.*`, `\d*`, `\w*`). -/
  | starG (p : Char → Bool)
  /-- Lazy star over a class (`.*?`). -/
  | starL (p : Char → Bool)
  /-- Greedy option (`(?:...)?`). -/
  | opt (r : RE)
  /-- Capture group `(...)` with index `n`. -/
  | group (n : Nat) (r : RE)
  | cat (r1 r2 : RE)
  | alt (r1 r2 : RE)
  /-- End of haystack (`$`). -/
  | eos

/-- Match a literal, consuming it from the front of the haystack. -/
def matchStrK (s l : List Char) (caps : Caps)
    (k : List Char → Caps → Option Caps) : Option Caps :=
  match s, l with
  | [], l => k l caps
  | _ :: _, [] => none
  | c :: cs, x :: xs => if c = x then matchStrK cs xs caps k else none

/-- Greedy repetition: try consuming `n` characters first, then fewer. -/
def tryDown (l : List Char) (caps : Caps)
    (k : List Char → Caps → Option Caps) : Nat → Option Caps
  | 0 => k l caps
  | n + 1 => (k (l.drop (n + 1)) caps).orElse (fun _ => tryDown l caps k n)

/-- Lazy repetition: try consuming `0` characters first, then more. -/
def tryUp (l : List Char) (caps : Caps)
    (k : List Char → Caps → Option Caps) : Nat → Option Caps
  | 0 => k l caps
  | n + 1 => (tryUp l caps k n).orElse (fun _ => k (l.drop (n + 1)) caps)

/-- Leftmost-first backtracking matcher in continuation style.  The first
success in backtracking order is returned, as in the `regex` crate. -/
def matchRE : RE → List Char → Caps → (List Char → Caps → Option Caps) → Option Caps
  | .str s, l, caps, k => matchStrK s l caps k
  | .cls p, l, caps, k =>
      match l with
      | [] => none
      | c :: rest => if p c then k rest caps else none
  | .starG p, l, caps, k => tryDown l caps k (l.takeWhile p).length
  | .starL p, l, caps, k => tryUp l caps k (l.takeWhile p).length
  | .opt r, l, caps, k => (matchRE r l caps k).orElse (fun _ => k l caps)
  | .group n r, l, caps, k =>
      matchRE r l caps
        (fun rest caps2 => k rest (setCap n (l.take (l.length - rest.length)) caps2))
  | .cat r1 r2, l, caps, k =>
      matchRE r1 l caps (fun rest caps2 => matchRE r2 rest caps2 k)
  | .alt r1 r2, l, caps, k =>
      (matchRE r1 l caps k).orElse (fun _ => matchRE r2 l caps k)
  | .eos, l, caps, k =>
      match l with
      | [] => k l caps
      | _ :: _ => none

/-- Run an (anchored) regex against a haystack, recording group 0 as the
whole match; `Regex::captures` for the source regexes, all of which are
anchored with a leading caret. -/
def runCaptures (re : RE) (s : String) : Option Caps :=
  matchRE (.group 0 re) s.data [] (fun _ caps => some caps)

/-- Class `\d` (ASCII extent). -/
def isDigitB (c : Char) : Bool := c.isDigit

/-- Class `\s` (ASCII extent: space, tab, newline, vertical tab, form feed,
carriage return). -/
def isSpaceB (c : Char) : Bool :=
  c = ' ' || c = '\t' || c = '\n' || c = Char.ofNat 11 || c = Char.ofNat 12 || c = '\r'

/-- Class `\w` (ASCII extent). -/
def isWordB (c : Char) : Bool := c.isAlphanum || c = '_'

/-- Class `.` — any character except newline. -/
def isDotB (c : Char) : Bool := !(c = '\n')

/-- Shorthand for `\d+` (greedy). -/
def plusG (p : Char → Bool) : RE := .cat (.cls p) (.starG p)

/-- Shorthand for `\d+?` (lazy). -/
def plusL (p : Char → Bool) : RE := .cat (.cls p) (.starL p)

/-- Literal from a string. -/
def litStr (s : String) : RE := .str s.data

/-! ## The source regexes

Each definition transcribes one `Regex::new(...)` literal of the source,
keeping the capture-group numbering of the original pattern. -/

/-- Embedding of the trace-line regex of `trace.rs::read_file`:
`^\s*(.*?)\-(\d+)\s*\(\s*(\d+)\).*?(\d+)\.(\d+): tracing_mark_write: (.)\|(\d+?)\|(.*?):(.*)\s*$` -/
def TRACE_REGEX : RE :=
  .cat (.starG isSpaceB) <|
  .cat (.group 1 (.starL isDotB)) <|
  .cat (.str ['-']) <|
  .cat (.group 2 (plusG isDigitB)) <|
  .cat (.starG isSpaceB) <|
  .cat (.str ['(']) <|
  .cat (.starG isSpaceB) <|
  .cat (.group 3 (plusG isDigitB)) <|
  .cat (.str [')']) <|
  .cat (.starL isDotB) <|
  .cat (.group 4 (plusG isDigitB)) <|
  .cat (.str ['.']) <|
  .cat (.group 5 (plusG isDigitB)) <|
  .cat (litStr ": tracing_mark_write: ") <|
  .cat (.group 6 (.cls isDotB)) <|
  .cat (.str ['|']) <|
  .cat (.group 7 (plusL isDigitB)) <|
  .cat (.str ['|']) <|
  .cat (.group 8 (.starL isDotB)) <|
  .cat (.str [':']) <|
  .cat (.group 9 (.starG isDotB)) <|
  .cat (.starG isSpaceB) .eos

/-- Embedding of `point_filters.rs::MEMORY_REPORT_REGEX`:
`^servo_memory_profiling:(.*?)\s(\d+)$|^servo_memory_profiling:(.*?)\|(\d+)\|\w*$` -/
def MEMORY_REPORT_REGEX : RE :=
  .alt
    (.cat (litStr "servo_memory_profiling:") <|
     .cat (.group 1 (.starL isDotB)) <|
     .cat (.cls isSpaceB) <|
     .cat (.group 2 (plusG isDigitB)) .eos)
    (.cat (litStr "servo_memory_profiling:") <|
     .cat (.group 3 (.starL isDotB)) <|
     .cat (.str ['|']) <|
     .cat (.group 4 (plusG isDigitB)) <|
     .cat (.str ['|']) <|
     .cat (.starG isWordB) .eos)

/-- Embedding of `point_filters.rs::MEMORY_URL_REPORT_REGEX`:
`^servo_memory_profiling:url\((.*?)\)\/(.*?)\s(\d+)$|^servo_memory_profiling:url\((.*?)\)\/(.*?)\|(\d+)\|\w*$` -/
def MEMORY_URL_REPORT_REGEX : RE :=
  .alt
    (.cat (litStr "servo_memory_profiling:url(") <|
     .cat (.group 1 (.starL isDotB)) <|
     .cat (litStr ")/") <|
     .cat (.group 2 (.starL isDotB)) <|
     .cat (.cls isSpaceB) <|
     .cat (.group 3 (plusG isDigitB)) .eos)
    (.cat (litStr "servo_memory_profiling:url(") <|
     .cat (.group 4 (.starL isDotB)) <|
     .cat (litStr ")/") <|
     .cat (.group 5 (.starL isDotB)) <|
     .cat (.str ['|']) <|
     .cat (.group 6 (plusG isDigitB)) <|
     .cat (.str ['|']) <|
     .cat (.starG isWordB) .eos)

/-- Embedding of `point_filters.rs::SMAPS_REGEX`:
`^servo_memory_profiling:(resident-according-to-smaps)\/(.*)\s(\d+)$|^servo_memory_profiling:(resident-according-to-smaps)\/(.*)\|(\d+)\|\w*$` -/
def SMAPS_REGEX : RE :=
  .alt
    (.cat (litStr "servo_memory_profiling:") <|
     .cat (.group 1 (litStr "resident-according-to-smaps")) <|
     .cat (.str ['/']) <|
     .cat (.group 2 (.starG isDotB)) <|
     .cat (.cls isSpaceB) <|
     .cat (.group 3 (plusG isDigitB)) .eos)
    (.cat (litStr "servo_memory_profiling:") <|
     .cat (.group 4 (litStr "resident-according-to-smaps")) <|
     .cat (.str ['/']) <|
     .cat (.group 5 (.starG isDotB)) <|
     .cat (.str ['|']) <|
     .cat (.group 6 (plusG isDigitB)) <|
     .cat (.str ['|']) <|
     .cat (.starG isWordB) .eos)

/-- Embedding of `point_filters.rs::TESTCASE_REGEX`:
`^TESTCASE_PROFILING: (.*?) (\d+)$|^TESTCASE_PROFILING: (.*?)\|(\d+)\|\w*$` -/
def TESTCASE_REGEX : RE :=
  .alt
    (.cat (litStr "TESTCASE_PROFILING: ") <|
     .cat (.group 1 (.starL isDotB)) <|
     .cat (.str [' ']) <|
     .cat (.group 2 (plusG isDigitB)) .eos)
    (.cat (litStr "TESTCASE_PROFILING: ") <|
     .cat (.group 3 (.starL isDotB)) <|
     .cat (.str ['|']) <|
     .cat (.group 4 (plusG isDigitB)) <|
     .cat (.str ['|']) <|
     .cat (.starG isWordB) .eos)

/-- Embedding of `point_filters.rs::LCP_REGEX`:
`^(LargestContentfulPaint)\|\w*\|(.*?)$` -/
def LCP_REGEX : RE :=
  .cat (.group 1 (litStr "LargestContentfulPaint")) <|
  .cat (.str ['|']) <|
  .cat (.starG isWordB) <|
  .cat (.str ['|']) <|
  .cat (.group 2 (.starL isDotB)) .eos

/-- Embedding of `point_filters.rs::FCP_REGEX`:
`^(FirstContentfulPaint)\|\w*\|(.*?)$` -/
def FCP_REGEX : RE :=
  .cat (.group 1 (litStr "FirstContentfulPaint")) <|
  .cat (.str ['|']) <|
  .cat (.starG isWordB) <|
  .cat (.str ['|']) <|
  .cat (.group 2 (.starL isDotB)) .eos

/-- Embedding of `point_filters.rs::CROSS_PROCESS_INSTANT`:
`^(?:epoch=Epoch\(\d*\),)?paint_time=CrossProcessInstant\s*\{\s*value:\s*(\d+)\s*\},(?:area=(\d*).*$)?` -/
def CROSS_PROCESS_INSTANT : RE :=
  .cat (.opt (.cat (litStr "epoch=Epoch(") (.cat (.starG isDigitB) (litStr "),")))) <|
  .cat (litStr "paint_time=CrossProcessInstant") <|
  .cat (.starG isSpaceB) <|
  .cat (.str [Char.ofNat 123]) <|
  .cat (.starG isSpaceB) <|
  .cat (litStr "value:") <|
  .cat (.starG isSpaceB) <|
  .cat (.group 1 (plusG isDigitB)) <|
  .cat (.starG isSpaceB) <|
  .cat (.str [Char.ofNat 125, ',']) <|
  .opt (.cat (litStr "area=") (.cat (.group 2 (.starG isDigitB)) (.cat (.starG isDotB) .eos)))

/-! ## Shared string helpers -/

/-- Boolean list-level test that `needle` occurs at the front of `hay`. -/
def listPrefixB : List Char → List Char → Bool
  | [], _ => true
  | _ :: _, [] => false
  | c :: cs, x :: xs => c = x && listPrefixB cs xs

/-- Boolean list-level substring test. -/
def listInfixB (needle : List Char) : List Char → Bool
  | [] => listPrefixB needle []
  | x :: rest => listPrefixB needle (x :: rest) || listInfixB needle rest

/-- Rust `str::contains` (substring containment). -/
def strContains (hay needle : String) : Bool := listInfixB needle.data hay.data

/-- Rust `str::parse::<u64>()` on a captured group: succeeds on a non-empty
all-digit string whose value fits in 64 bits.  (The optional sign accepted
by the Rust parser never occurs: every parsed group is matched by `\d`.) -/
def parseU64 (s : List Char) : Option Nat :=
  if s = [] then none
  else if s.all isDigitB then
    let v := s.foldl (fun acc c => acc * 10 + (c.toNat - 48)) 0
    if v < 2 ^ 64 then some v else none
  else none

/-! ## Data model of `trace.rs` -/

/-- Timestamp of a trace: seconds and microseconds, both `u64`. -/
structure TimeStamp where
  seconds : Nat
  micro : Nat
deriving DecidableEq, Repr

/-- The trace-marker kind, one of the characters `B,E,S,F,C`. -/
inductive TraceMarker where
  | StartSync
  | EndSync
  | StartAsync
  | EndAsync
  | Dot
deriving DecidableEq, Repr

/-- Embedding of `TraceMarker::from` (named `fromStr` because `from` is a
Lean keyword). -/
def TraceMarker.fromStr (val : List Char) : Except String TraceMarker :=
  if val = ['B'] then .ok .StartSync
  else if val = ['E'] then .ok .EndSync
  else if val = ['S'] then .ok .StartAsync
  else if val = ['F'] then .ok .EndAsync
  else if val = ['C'] then .ok .Dot
  else .error "Could not parse Trace Marker"

/-- A parsed trace line (`trace.rs::Trace`). -/
structure Trace where
  name : String
  pid : Nat
  cpu : Nat
  timestamp : TimeStamp
  trace_marker : TraceMarker
  number : String
  shorthand : String
  function : String
deriving DecidableEq, Repr

/-- Outcome of parsing one regex-matched line: a Rust panic, a returned
`Err`, or a parsed trace. -/
inductive LineOutcome where
  | panicked (msg : String)
  | failed (msg : String)
  | parsed (t : Trace)
deriving DecidableEq, Repr

/-- Embedding of `trace.rs::match_to_trace`, given the nine captured
groups.  `time1.parse()?` / `time2.parse()?` surface as returned errors;
`pid.parse().unwrap()` / `cpu.parse().unwrap()` are panics. -/
def match_to_trace (name pid cpu time1 time2 trace_marker number shorthand msg :
    List Char) : LineOutcome :=
  match parseU64 time1 with
  | none => .failed "invalid integer (seconds)"
  | some seconds =>
  match parseU64 time2 with
  | none => .failed "invalid integer (microseconds)"
  | some micro =>
  match TraceMarker.fromStr trace_marker with
  | .error e => .failed e
  | .ok tm =>
  match parseU64 pid with
  | none => .panicked "pid parse unwrap"
  | some pidv =>
  match parseU64 cpu with
  | none => .panicked "cpu parse unwrap"
  | some cpuv =>
    .parsed
      { name := String.mk name
        pid := pidv
        cpu := cpuv
        timestamp := ⟨seconds, micro⟩
        trace_marker := tm
        number := String.mk number
        shorthand := String.mk shorthand
        function := String.mk msg }

/-- Embedding of `trace.rs::line_to_trace`: `None` when the regex does not
match; otherwise the outcome of `match_to_trace` on the extracted groups.
(`extract` demands all nine groups; the trace regex has no alternation, so
they are always present on a match.) -/
def line_to_trace (line : String) : Option LineOutcome :=
  (runCaptures TRACE_REGEX line).map (fun caps =>
    match capGet caps 1, capGet caps 2, capGet caps 3, capGet caps 4, capGet caps 5,
          capGet caps 6, capGet caps 7, capGet caps 8, capGet caps 9 with
    | some g1, some g2, some g3, some g4, some g5, some g6, some g7, some g8, some g9 =>
        match_to_trace g1 g2 g3 g4 g5 g6 g7 g8 g9
    | _, _, _, _, _, _, _, _, _ => .panicked "capture group missing in extract")

/-- Outcome of reading a whole file: a panic, the error that aborts the
`collect::<Result<Vec<Trace>>>`, or the list of parsed traces. -/
inductive FileOutcome where
  | panicked (msg : String)
  | failed (msg : String)
  | ok (traces : List Trace)
deriving DecidableEq, Repr

/-- Boolean success test on a `FileOutcome`. -/
def FileOutcome.isOk : FileOutcome → Bool
  | .ok _ => true
  | _ => false

/-- Sequential accumulation of `read_file`: lines are processed in order,
lines the regex does not match are skipped, and the first line whose parse
returns an error aborts the collection (the `collect::<Result<Vec<_>>>` of
the source). -/
def read_file_go : List String → List Trace → FileOutcome
  | [], acc => .ok acc.reverse
  | line :: rest, acc =>
    match line_to_trace line with
    | none => read_file_go rest acc
    | some (.parsed t) => read_file_go rest (t :: acc)
    | some (.failed e) => .failed e
    | some (.panicked m) => .panicked m

/-- Embedding of `trace.rs::read_file` over the list of lines of the file. -/
def read_file (lines : List String) : FileOutcome := read_file_go lines []

/-! ## `difference_of_traces` and the interval filter of `filter.rs` -/

/-- Rust `u64 as i64` (two's complement reinterpretation). -/
def i64ofU64 (n : Nat) : Int :=
  if n % 2 ^ 64 < 2 ^ 63 then ((n % 2 ^ 64 : Nat) : Int)
  else ((n % 2 ^ 64 : Nat) : Int) - 2 ^ 64

/-- Rust `u64 as i32` (truncating two's complement reinterpretation). -/
def i32ofU64 (n : Nat) : Int :=
  if n % 2 ^ 32 < 2 ^ 31 then ((n % 2 ^ 32 : Nat) : Int)
  else ((n % 2 ^ 32 : Nat) : Int) - 2 ^ 32

/-- Wrapping of a mathematical integer into `i64` (release-mode overflow). -/
def wrapI64 (x : Int) : Int := (x + 2 ^ 63) % 2 ^ 64 - 2 ^ 63

/-- Wrapping of a mathematical integer into `i32` (release-mode overflow). -/
def wrapI32 (x : Int) : Int := (x + 2 ^ 31) % 2 ^ 32 - 2 ^ 31

/-- Embedding of `trace.rs::difference_of_traces`, as the total signed
nanosecond count of the resulting `time::Duration`:
`Duration::new(t1.sec as i64 - t2.sec as i64, (t1.micro as i32 - t2.micro as i32) * 1000)`. -/
def difference_of_traces (trace1 trace2 : Trace) : Int :=
  wrapI64 (i64ofU64 trace1.timestamp.seconds - i64ofU64 trace2.timestamp.seconds)
      * 1000000000
    + wrapI32 (wrapI32 (i32ofU64 trace1.timestamp.micro - i32ofU64 trace2.timestamp.micro)
      * 1000)

/-- An interval filter (`filter.rs::Filter`): a name and two predicates. -/
structure Filter where
  name : String
  first : Trace → Bool
  last : Trace → Bool

/-- The data carried by the `anyhow!` error of `filter_to_duration`: the
filter name and the two observed match counts. -/
structure FilterCountError where
  name : String
  firstCount : Nat
  lastCount : Nat
deriving DecidableEq, Repr

/-- Embedding of `filter.rs::Filter::filter_to_duration`. -/
def filter_to_duration (f : Filter) (v : List Trace) :
    String × Except FilterCountError Int :=
  if (v.filter f.first).length ≠ 1 ∨ (v.filter f.last).length ≠ 1 then
    (f.name, .error ⟨f.name, (v.filter f.first).length, (v.filter f.last).length⟩)
  else
    match v.filter f.first, v.filter f.last with
    | first_trace :: _, last_trace :: _ =>
        (f.name, .ok (difference_of_traces last_trace first_trace))
    | _, _ => (f.name, .error ⟨"unwrap on empty", 0, 0⟩)

/-! ## Point extraction (`point_filters.rs`) -/

/-- The combination policy of a point filter. -/
inductive PointFilterType where
  | Default
  | Combined
  | Largest
deriving DecidableEq, Repr

/-- The kind of an extracted point, carrying its numeric `u64` value. -/
inductive PointType where
  | MemoryUrl (v : Nat)
  | MemoryReport (v : Nat)
  | Smaps (v : Nat)
  | Testcase (v : Nat)
  | Combined (v : Nat)
  | LargestContentfulPaint (v : Nat)
deriving DecidableEq, Repr

/-- Embedding of `PointType::numeric_value`. -/
def PointType.numeric_value : PointType → Option Nat
  | .MemoryUrl v | .MemoryReport v | .Smaps v | .Testcase v | .Combined v
  | .LargestContentfulPaint v => some v

/-- The always-defined value behind `numeric_value().unwrap()`. -/
def PointType.value : PointType → Nat
  | .MemoryUrl v | .MemoryReport v | .Smaps v | .Testcase v | .Combined v
  | .LargestContentfulPaint v => v

/-- Discriminator for `matches!(p.point_type, PointType::Testcase(_))`. -/
def PointType.isTestcase : PointType → Bool
  | .Testcase _ => true
  | _ => false

/-- Discriminator for `matches!(p.point_type, PointType::MemoryReport(_))`. -/
def PointType.isMemoryReport : PointType → Bool
  | .MemoryReport _ => true
  | _ => false

/-- A parsed trace point metric (`point_filters.rs::Point`). -/
structure Point where
  name : String
  no_unit_conversion : Bool
  point_type : PointType
  trace : Option Trace
deriving DecidableEq, Repr

/-- A point-filter specification (`point_filters.rs::PointFilter`). -/
structure PointFilter where
  name : String
  match_str : String
  no_unit_conversion : Bool
  point_filter_type : PointFilterType
deriving DecidableEq, Repr

/-- The only part of `RunConfig` the point filters read:
`run_config.run_args.url`, the configured target URL. -/
structure RunConfig where
  url : String
deriving DecidableEq, Repr

/-- Numeric value of a point, the composition
`p.point_type.numeric_value().unwrap()` (total: every `PointType` carries a
value, see `PointType.numeric_value`). -/
def numValue (p : Point) : Nat := p.point_type.value

/-- Rust `str::split('/')` at the character-list level (the string-level
`String.splitOn` of the library does not reduce definitionally). -/
def splitSlash : List Char → List (List Char)
  | [] => [[]]
  | c :: rest =>
    if c = '/' then [] :: splitSlash rest
    else
      match splitSlash rest with
      | h :: t => (c :: h) :: t
      | [] => [[c]]

/-- Suffix computation of `filter_memory_url`:
`subsystem_path.split('/').skip(1).join("/")`, with a `/` prepended when
non-empty. -/
def memUrlSuffix (subsystem_path : String) : String :=
  let s := String.mk (List.intercalate ['/'] ((splitSlash subsystem_path.data).drop 1))
  if s = "" then "" else "/" ++ s

/-- Embedding of `PointFilter::filter_memory_url`.  The `expect` calls on
the capture iterator and on the value parse are modelled as errors. -/
def filter_memory_url (pf : PointFilter) (rc : RunConfig) (groups : Caps)
    (trace : Trace) : Except String (Option Point) :=
  match capFlatten groups 6 with
  | _whole :: url :: subsystem_path :: value :: _ =>
    match parseU64 value with
    | none => .error "Could not parse value"
    | some v =>
      if strContains (String.mk url) rc.url then
        .ok (some
          { name := rc.url ++ "/" ++ pf.name ++ memUrlSuffix (String.mk subsystem_path)
            no_unit_conversion := pf.no_unit_conversion
            point_type := .MemoryUrl v
            trace := some trace })
      else .ok none
  | _ => .error "No match"

/-- Embedding of `PointFilter::filter_smaps`.  The first flattened group
after the whole match is compared with `match_str`; the group after the
skipped one is the value. -/
def filter_smaps (pf : PointFilter) (rc : RunConfig) (groups : Caps)
    (trace : Trace) : Except String (Option Point) :=
  match capFlatten groups 6 with
  | _whole :: match_str :: rest =>
    if String.mk match_str ≠ pf.match_str then .ok none
    else
      match rest.drop 1 with
      | value :: _ =>
        match parseU64 value with
        | none => .error "Could not parse"
        | some v =>
          .ok (some
            { name := rc.url ++ "/" ++ pf.name
              no_unit_conversion := pf.no_unit_conversion
              point_type := .Smaps v
              trace := some trace })
      | [] => .error "Could not find match"
  | _ => .error "unwrap on missing capture"

/-- Embedding of `PointFilter::filter_memory` (the generic memory-report
fallback; its name group is ignored by the source). -/
def filter_memory (pf : PointFilter) (rc : RunConfig) (groups : Caps)
    (trace : Trace) : Except String (Option Point) :=
  match capFlatten groups 4 with
  | _whole :: _name :: value :: _ =>
    match parseU64 value with
    | none => .error "Could not parse value"
    | some v =>
      .ok (some
        { name := rc.url ++ "/" ++ pf.name
          no_unit_conversion := pf.no_unit_conversion
          point_type := .MemoryReport v
          trace := some trace })
  | _ => .error "Could not find match"

/-- Embedding of `PointFilter::filter_testcase`.  Note that the produced
name is the configured URL followed by `/` only (no filter name). -/
def filter_testcase (pf : PointFilter) (rc : RunConfig) (groups : Caps)
    (trace : Trace) : Except String (Option Point) :=
  match capFlatten groups 4 with
  | _whole :: case_name :: value :: _ =>
    match parseU64 value with
    | none => .error "Could not parse value"
    | some v =>
      if strContains (String.mk case_name) pf.match_str then
        .ok (some
          { name := rc.url ++ "/"
            no_unit_conversion := pf.no_unit_conversion
            point_type := .Testcase v
            trace := some trace })
      else .ok none
  | _ => .error "Could not find match"

/-- Extracted LCP values (`point_filters.rs::LCPTraceValues`). -/
structure LCPTraceValues where
  paint_time : Nat
  area : Nat
deriving DecidableEq, Repr

/-- Extracted FCP value (`point_filters.rs::FCPTraceValue`). -/
structure FCPTraceValue where
  paint_time : Nat
deriving DecidableEq, Repr

/-- Embedding of `point_filters.rs::parse_lcp_trace`: `None` when the
regex does not match, an error when a group is absent or does not parse
(the `expect` calls of the source). -/
def parse_lcp_trace (input : String) : Except String (Option LCPTraceValues) :=
  match runCaptures CROSS_PROCESS_INSTANT input with
  | none => .ok none
  | some groups =>
    match capGet groups 1 with
    | none => .error "Could not find paint_time in LCP trace using REGEX"
    | some g1 =>
      match parseU64 g1 with
      | none => .error "Count not parse paint_time from LCP trace using REGEX"
      | some paint_time =>
        match capGet groups 2 with
        | none => .error "Could not find paint_time in LCP trace using REGEX"
        | some g2 =>
          match parseU64 g2 with
          | none => .error "Count not parse paint_time from LCP trace using REGEX"
          | some area => .ok (some ⟨paint_time, area⟩)

/-- Embedding of `point_filters.rs::parse_fcp_trace`. -/
def parse_fcp_trace (input : String) : Except String (Option FCPTraceValue) :=
  match runCaptures CROSS_PROCESS_INSTANT input with
  | none => .ok none
  | some groups =>
    match capGet groups 1 with
    | none => .error "Could not find paint_time in LCP trace using REGEX"
    | some g1 =>
      match parseU64 g1 with
      | none => .error "Count not parse paint_time from LCP trace using REGEX"
      | some paint_time => .ok (some ⟨paint_time⟩)

/-- Embedding of `PointFilter::filter_lcp_or_fcp`: two points for an LCP
match, one for an FCP match; the `expect` on the parse result is an error. -/
def filter_lcp_or_fcp (pf : PointFilter) (rc : RunConfig) (groups : Caps)
    (trace : Trace) : Except String (Option (List Point)) :=
  match capFlatten groups 2 with
  | _whole :: filter_name :: key_values :: _ =>
    if String.mk filter_name = "LargestContentfulPaint" then
      match parse_lcp_trace (String.mk key_values) with
      | .error e => .error e
      | .ok none => .error "Could not parse LCP values"
      | .ok (some lcp_values) =>
        .ok (some
          [{ name := rc.url ++ "/" ++ pf.name ++ "/paint_time"
             no_unit_conversion := pf.no_unit_conversion
             point_type := .LargestContentfulPaint lcp_values.paint_time
             trace := some trace },
           { name := rc.url ++ "/" ++ pf.name ++ "/area"
             no_unit_conversion := pf.no_unit_conversion
             point_type := .LargestContentfulPaint lcp_values.area
             trace := some trace }])
    else if String.mk filter_name = "FirstContentfulPaint" then
      match parse_fcp_trace (String.mk key_values) with
      | .error e => .error e
      | .ok none => .error "Could not parse LCP values"
      | .ok (some fcp_value) =>
        .ok (some
          [{ name := rc.url ++ "/" ++ pf.name ++ "/paint_time"
             no_unit_conversion := pf.no_unit_conversion
             point_type := .LargestContentfulPaint fcp_value.paint_time
             trace := some trace }])
    else .ok none
  | _ => .error "Could not find match"

/-- Embedding of `PointFilter::filter_trace_to_option_point`: the dispatch
order of the source is LCP, FCP, then MemoryUrl, Smaps, MemoryReport,
Testcase, the single-point branches wrapped into one-element lists. -/
def filter_trace_to_option_point (pf : PointFilter) (trace : Trace)
    (rc : RunConfig) : Except String (Option (List Point)) :=
  match runCaptures LCP_REGEX trace.function with
  | some groups => filter_lcp_or_fcp pf rc groups trace
  | none =>
  match runCaptures FCP_REGEX trace.function with
  | some groups => filter_lcp_or_fcp pf rc groups trace
  | none =>
  (match runCaptures MEMORY_URL_REPORT_REGEX trace.function with
   | some groups => filter_memory_url pf rc groups trace
   | none =>
   match runCaptures SMAPS_REGEX trace.function with
   | some groups => filter_smaps pf rc groups trace
   | none =>
   match runCaptures MEMORY_REPORT_REGEX trace.function with
   | some groups => filter_memory pf rc groups trace
   | none =>
   match runCaptures TESTCASE_REGEX trace.function with
   | some groups => filter_testcase pf rc groups trace
   | none => .ok none).map (Option.map (fun p => [p]))

/-- Modelled from the spec: the dispatch in the spec's stated priority
order — MemoryUrl, then Smaps, then generic MemoryReport, then Testcase,
then LCP/FCP — with first match winning.  Compared against
`filter_trace_to_option_point` for the refinement claim on dispatch order. -/
def filter_trace_spec_order (pf : PointFilter) (trace : Trace)
    (rc : RunConfig) : Except String (Option (List Point)) :=
  match runCaptures MEMORY_URL_REPORT_REGEX trace.function with
  | some groups => (filter_memory_url pf rc groups trace).map (Option.map (fun p => [p]))
  | none =>
  match runCaptures SMAPS_REGEX trace.function with
  | some groups => (filter_smaps pf rc groups trace).map (Option.map (fun p => [p]))
  | none =>
  match runCaptures MEMORY_REPORT_REGEX trace.function with
  | some groups => (filter_memory pf rc groups trace).map (Option.map (fun p => [p]))
  | none =>
  match runCaptures TESTCASE_REGEX trace.function with
  | some groups => (filter_testcase pf rc groups trace).map (Option.map (fun p => [p]))
  | none =>
  match runCaptures LCP_REGEX trace.function with
  | some groups => filter_lcp_or_fcp pf rc groups trace
  | none =>
  match runCaptures FCP_REGEX trace.function with
  | some groups => filter_lcp_or_fcp pf rc groups trace
  | none => .ok none

/-- An `error!` log entry emitted by `remove_duplicates`: the formatted
message names the point filter and the traces of the listed points. -/
structure LogEntry where
  point_filter : PointFilter
  traces : List Trace
deriving DecidableEq, Repr

/-- One `retain`-plus-`error!` block of `remove_duplicates`, for the point
kind selected by `isK`: when more than one point of that kind is present,
all points of that kind are dropped and one error naming the filter and
the current points' traces is appended to the log. -/
def drop_dup_kind (pf : PointFilter) (isK : PointType → Bool)
    (st : List Point × List LogEntry) : List Point × List LogEntry :=
  if 1 < (st.1.filter (fun p => isK p.point_type)).length then
    (st.1.filter (fun p => !isK p.point_type),
     st.2 ++ [LogEntry.mk pf (st.1.filterMap (fun p => p.trace))])
  else st

/-- Embedding of `PointFilter::remove_duplicates`: the `Testcase` block
runs first on the extracted points, then the `MemoryReport` block on the
retained points. -/
def remove_duplicates (pf : PointFilter) (points : List Point) :
    List Point × List LogEntry :=
  drop_dup_kind pf PointType.isMemoryReport
    (drop_dup_kind pf PointType.isTestcase (points, []))

/-- The pre-filter of `pointfilter_to_point`: marker `Dot` or `StartSync`,
a recognized tag substring, and the filter's match string. -/
def preFilter (pf : PointFilter) (traces : List Trace) : List Trace :=
  ((traces.filter (fun t =>
      t.trace_marker == TraceMarker.Dot || t.trace_marker == TraceMarker.StartSync)).filter
    (fun t =>
      strContains t.function "servo_memory_profiling"
        || strContains t.function "TESTCASE_PROFILING"
        || strContains t.function "LargestContentfulPaint"
        || strContains t.function "FirstContentfulPaint")).filter
    (fun t => strContains t.function pf.match_str)

/-- Sequential `filter_map(..).flatten().collect()` over the pre-filtered
traces, propagating the first panic. -/
def collectPoints (pf : PointFilter) (rc : RunConfig) :
    List Trace → Except String (List Point)
  | [] => .ok []
  | t :: rest =>
    match filter_trace_to_option_point pf t rc with
    | .error e => .error e
    | .ok none => collectPoints pf rc rest
    | .ok (some ps) => (collectPoints pf rc rest).map (fun others => ps ++ others)

/-- Embedding of `into_group_map_by(|p| p.name.clone())`: points grouped by
name, each group in encounter order.  The iteration order of the Rust hash
map is unspecified; the embedding lists keys in first-occurrence order. -/
def group_map_by (pts : List Point) : List (String × List Point) :=
  ((pts.map (fun p => p.name)).dedup).map
    (fun n => (n, pts.filter (fun p => p.name == n)))

/-- The per-group replacement closure of `pointfilter_to_point`: a
singleton group stays; otherwise the group is replaced by one summed
(`Combined`) or maximal (`Largest`) point.  The `unwrap` on an empty group
and the `panic!` of the unreachable `Default` arm are errors. -/
def replGroup (pf : PointFilter) : String × List Point → Except String Point
  | (_, [p]) => .ok p
  | (name, vals) =>
    match vals.head? with
    | none => .error "unwrap on empty group"
    | some p0 =>
      match pf.point_filter_type with
      | .Largest =>
        match (vals.map numValue).max? with
        | none => .error "unwrap on empty max"
        | some m =>
          .ok
            { name := name
              no_unit_conversion := p0.no_unit_conversion
              point_type := .LargestContentfulPaint m
              trace := none }
      | .Combined =>
        .ok
          { name := name
            no_unit_conversion := p0.no_unit_conversion
            point_type := .Combined ((vals.map numValue).sum % 2 ^ 64)
            trace := none }
      | .Default => .error "should not be reachable"

/-- The grouping/combining branch of `pointfilter_to_point` for the
`Combined` and `Largest` policies. -/
def groupCombine (pf : PointFilter) (pts : List Point) :
    Except String (List Point) :=
  (group_map_by pts).mapM (replGroup pf)

/-- Embedding of `PointFilter::pointfilter_to_point`, also returning the
list of `error!` log entries emitted by `remove_duplicates`. -/
def pointfilter_to_point (pf : PointFilter) (traces : List Trace)
    (rc : RunConfig) : Except String (List Point × List LogEntry) :=
  match collectPoints pf rc (preFilter pf traces) with
  | .error e => .error e
  | .ok points =>
    if pf.point_filter_type ≠ PointFilterType.Default then
      (groupCombine pf points).map (fun res => (res, []))
    else
      .ok (remove_duplicates pf points)

/-! ## Aggregation (`utils.rs`) -/

/-- The aggregate of `avg_min_max` (`utils.rs::AvgMingMax`); `number` is
the `u16` run count. -/
structure AvgMingMax where
  avg : Nat
  min : Nat
  max : Nat
  number : Nat
deriving DecidableEq, Repr

/-- Boolean success test on an `Except`. -/
def exceptIsOk {ε α : Type} : Except ε α → Bool
  | .ok _ => true
  | .error _ => false

/-- Embedding of `utils.rs::avg_min_max` at the `u64` instantiation used by
the point results.  `values.len().try_into::<u16>().expect(..)` panics for
more than 65535 values; `min().expect(..)` panics on an empty input; the
sum wraps at 2^64 (release-mode `u64` addition) and the average is the
truncating `u64` division of the sum by the count. -/
def avg_min_max (values : List Nat) : Except String AvgMingMax :=
  if 65535 < values.length then .error "You have too many runs"
  else
    match values.min?, values.max? with
    | some mn, some mx =>
      .ok
        { avg := (values.foldl (fun acc v => (acc + v) % 2 ^ 64) 0) / values.length
          min := mn
          max := mx
          number := values.length }
    | _, _ => .error "Could not find min"

/-! ## Helper lemmas -/

/-- Characterization of `List.min?` on `Nat`. -/
theorem nat_min?_iff (l : List Nat) (a : Nat) :
    l.min? = some a ↔ a ∈ l ∧ ∀ b ∈ l, a ≤ b := by
  rw [List.min?_eq_some_iff] <;> (intros; omega)

/-- Characterization of `List.max?` on `Nat`. -/
theorem nat_max?_iff (l : List Nat) (a : Nat) :
    l.max? = some a ↔ a ∈ l ∧ ∀ b ∈ l, b ≤ a := by
  rw [List.max?_eq_some_iff] <;> (intros; omega)

/-- `List.min?` is invariant under permutation. -/
theorem min?_perm {l1 l2 : List Nat} (h : l1.Perm l2) : l1.min? = l2.min? := by
  cases o : l1.min? with
  | none =>
    have h1 : l1 = [] := List.min?_eq_none_iff.mp o
    subst h1
    simp [h.nil_eq.symm]
  | some a =>
    obtain ⟨hm, hle⟩ := (nat_min?_iff l1 a).mp o
    exact ((nat_min?_iff l2 a).mpr
      ⟨h.mem_iff.mp hm, fun b hb => hle b (h.mem_iff.mpr hb)⟩).symm

/-- `List.max?` is invariant under permutation. -/
theorem max?_perm {l1 l2 : List Nat} (h : l1.Perm l2) : l1.max? = l2.max? := by
  cases o : l1.max? with
  | none =>
    have h1 : l1 = [] := List.max?_eq_none_iff.mp o
    subst h1
    simp [h.nil_eq.symm]
  | some a =>
    obtain ⟨hm, hle⟩ := (nat_max?_iff l1 a).mp o
    exact ((nat_max?_iff l2 a).mpr
      ⟨h.mem_iff.mp hm, fun b hb => hle b (h.mem_iff.mpr hb)⟩).symm

/-- The wrapping fold of `avg_min_max` computes the sum modulo `2 ^ 64`. -/
theorem foldl_wrap (l : List Nat) : ∀ a : Nat,
    l.foldl (fun acc v => (acc + v) % 2 ^ 64) (a % 2 ^ 64) = (a + l.sum) % 2 ^ 64 := by
  induction l with
  | nil => intro a; simp
  | cons x xs ih =>
    intro a
    have h1 : (a % 2 ^ 64 + x) % 2 ^ 64 = (a + x) % 2 ^ 64 := Nat.mod_add_mod a (2 ^ 64) x
    simp only [List.foldl_cons, List.sum_cons]
    rw [h1, ih (a + x), Nat.add_assoc]

/-- The wrapping fold started at zero. -/
theorem foldl_wrap_zero (l : List Nat) :
    l.foldl (fun acc v => (acc + v) % 2 ^ 64) 0 = l.sum % 2 ^ 64 := by
  have h := foldl_wrap l 0
  simpa using h

/-! ## Claim C9 -/

/-- Claim C9: for every single-element input `[x]` (a `u64` value, so
`x < 2 ^ 64`), `avg_min_max [x]` returns average, minimum and maximum all
equal to `x` with count 1; and for every pair of inputs that are
permutations of each other, `avg_min_max` returns the same result. -/
theorem avg_min_max_singleton_and_perm :
    (∀ x : Nat, x < 2 ^ 64 → avg_min_max [x] = .ok ⟨x, x, x, 1⟩) ∧
    (∀ l1 l2 : List Nat, l1.Perm l2 → avg_min_max l1 = avg_min_max l2) := by
  constructor
  · intro x hx
    simp only [avg_min_max, List.min?, List.max?, List.foldl]
    norm_num
    omega
  · intro l1 l2 h
    unfold avg_min_max
    rw [h.length_eq, min?_perm h, max?_perm h, foldl_wrap_zero, foldl_wrap_zero,
      h.sum_eq]

/-- Witness for C9 at concrete inputs. -/
theorem avg_min_max_singleton_and_perm_witness :
    avg_min_max [7] = .ok ⟨7, 7, 7, 1⟩ ∧ avg_min_max [1, 2] = avg_min_max [2, 1] := by
  refine ⟨avg_min_max_singleton_and_perm.1 7 (by decide), ?_⟩
  exact avg_min_max_singleton_and_perm.2 [1, 2] [2, 1] (by decide)

/-! ## Claim C10 -/

/-- Claim C10: `avg_min_max` fails loudly (a panic, modelled as an error)
on inputs longer than 65535 and on the empty input, and returns normally
with `number` equal to the input length on every other input. -/
theorem avg_min_max_domain : ∀ values : List Nat,
    (65535 < values.length → avg_min_max values = .error "You have too many runs") ∧
    (values = [] → avg_min_max values = .error "Could not find min") ∧
    (values ≠ [] → values.length ≤ 65535 →
      exceptIsOk (avg_min_max values) = true ∧
      ∀ r, avg_min_max values = .ok r → r.number = values.length) := by
  intro values
  refine ⟨fun hbig => ?_, fun hnil => ?_, fun hne hlen => ?_⟩
  · simp [avg_min_max, hbig]
  · subst hnil
    simp [avg_min_max, List.min?, List.max?]
  · have hndec : ¬ 65535 < values.length := by omega
    cases omn : values.min? with
    | none => exact absurd (List.min?_eq_none_iff.mp omn) hne
    | some mn =>
      cases omx : values.max? with
      | none => exact absurd (List.max?_eq_none_iff.mp omx) hne
      | some mx =>
        constructor
        · simp [avg_min_max, hndec, omn, omx, exceptIsOk]
        · intro r hr
          simp [avg_min_max, hndec, omn, omx] at hr
          rw [hr.symm]

/-- Witness for C10 at concrete inputs: an input of length 65536 and the
empty input fail, a singleton input succeeds with count 1. -/
theorem avg_min_max_domain_witness :
    avg_min_max (List.replicate 65536 0) = .error "You have too many runs" ∧
    avg_min_max ([] : List Nat) = .error "Could not find min" ∧
    exceptIsOk (avg_min_max [3]) = true := by
  refine ⟨(avg_min_max_domain _).1 (by rw [List.length_replicate]; omega),
    (avg_min_max_domain _).2.1 rfl, ?_⟩
  exact ((avg_min_max_domain [3]).2.2 (by decide) (by decide)).1

/-! ## Claim C3 -/

/-- Timestamp of a trace in whole microseconds (signed domain). -/
def tsMicro (t : Trace) : Int :=
  (t.timestamp.seconds : Int) * 1000000 + (t.timestamp.micro : Int)

/-- Bounds under which the casts of `difference_of_traces` are lossless:
seconds below `2 ^ 33` and a well-formed microsecond field. -/
def tsSmall (t : Trace) : Prop :=
  t.timestamp.seconds < 2 ^ 33 ∧ t.timestamp.micro < 1000000

/-- Wrapping into `i32` is the identity inside the `i32` range. -/
theorem wrapI32_id (x : Int) (h1 : -(2 ^ 31) ≤ x) (h2 : x < 2 ^ 31) :
    wrapI32 x = x := by
  unfold wrapI32
  omega

/-- Wrapping into `i64` is the identity inside the `i64` range. -/
theorem wrapI64_id (x : Int) (h1 : -(2 ^ 63) ≤ x) (h2 : x < 2 ^ 63) :
    wrapI64 x = x := by
  unfold wrapI64
  omega

/-- The `u64 as i64` cast is the identity on small values. -/
theorem i64ofU64_id (n : Nat) (h : n < 2 ^ 63) : i64ofU64 n = n := by
  unfold i64ofU64
  have h1 : n % 2 ^ 64 = n := Nat.mod_eq_of_lt (by omega)
  rw [h1, if_pos h]

/-- The `u64 as i32` cast is the identity on small values. -/
theorem i32ofU64_id (n : Nat) (h : n < 2 ^ 31) : i32ofU64 n = n := by
  unfold i32ofU64
  have h1 : n % 2 ^ 32 = n := Nat.mod_eq_of_lt (by omega)
  rw [h1, if_pos h]

/-- With in-range timestamps, `difference_of_traces` is the exact signed
difference at microsecond precision, expressed in nanoseconds. -/
theorem difference_of_traces_exact (t1 t2 : Trace) (h1 : tsSmall t1)
    (h2 : tsSmall t2) :
    difference_of_traces t1 t2 = (tsMicro t1 - tsMicro t2) * 1000 := by
  obtain ⟨h1s, h1m⟩ := h1
  obtain ⟨h2s, h2m⟩ := h2
  unfold difference_of_traces tsMicro
  rw [i64ofU64_id _ (by omega), i64ofU64_id _ (by omega),
    i32ofU64_id _ (by omega), i32ofU64_id _ (by omega)]
  rw [wrapI32_id ((t1.timestamp.micro : Int) - (t2.timestamp.micro : Int))
    (by omega) (by omega)]
  rw [wrapI32_id _ (by omega) (by omega)]
  rw [wrapI64_id _ (by omega) (by omega)]
  ring

/-- Claim C3: for every record list and interval filter over in-range
timestamps, the result is the signed microsecond-precision difference
`end - start` exactly when the start predicate and the end predicate each
match exactly one record, and otherwise it is an error naming the filter
and both observed match counts. -/
theorem filter_to_duration_spec (f : Filter) (v : List Trace)
    (hb : ∀ t ∈ v, tsSmall t) :
    (∀ ts te, v.filter f.first = [ts] → v.filter f.last = [te] →
      filter_to_duration f v = (f.name, .ok ((tsMicro te - tsMicro ts) * 1000))) ∧
    (¬ ((v.filter f.first).length = 1 ∧ (v.filter f.last).length = 1) →
      filter_to_duration f v =
        (f.name, .error ⟨f.name, (v.filter f.first).length, (v.filter f.last).length⟩)) := by
  constructor
  · intro ts te hfirst hlast
    have hts : ts ∈ v := List.mem_of_mem_filter (hfirst ▸ List.mem_singleton_self ts)
    have hte : te ∈ v := List.mem_of_mem_filter (hlast ▸ List.mem_singleton_self te)
    have hcond : ¬ ((v.filter f.first).length ≠ 1 ∨ (v.filter f.last).length ≠ 1) := by
      rw [hfirst, hlast]
      simp
    unfold filter_to_duration
    rw [if_neg hcond, hfirst, hlast]
    show (f.name, Except.ok (difference_of_traces te ts)) = _
    rw [difference_of_traces_exact te ts (hb te hte) (hb ts hts)]
  · intro hcounts
    have hcond : (v.filter f.first).length ≠ 1 ∨ (v.filter f.last).length ≠ 1 := by
      by_contra hc
      push_neg at hc
      exact hcounts ⟨hc.1, hc.2⟩
    unfold filter_to_duration
    rw [if_pos hcond]

/-- Witness for C3: the spec's own example — start at `t = 10.0`, end at
`t = 12.5` gives exactly 2.5 seconds — and an ambiguous capture with two
start matches and one end match gives the error with counts `(2, 1)`. -/
theorem filter_to_duration_spec_witness :
    filter_to_duration
        ⟨"A", fun t => strContains t.function "startA",
              fun t => strContains t.function "endA"⟩
        [⟨"x", 1, 1, ⟨10, 0⟩, .StartSync, "1", "H", "startA"⟩,
         ⟨"x", 1, 1, ⟨12, 500000⟩, .EndSync, "1", "H", "endA"⟩] =
      ("A", .ok 2500000000) ∧
    filter_to_duration
        ⟨"A", fun t => strContains t.function "startA",
              fun t => strContains t.function "endA"⟩
        [⟨"x", 1, 1, ⟨10, 0⟩, .StartSync, "1", "H", "startA"⟩,
         ⟨"x", 1, 1, ⟨11, 0⟩, .StartSync, "1", "H", "startA"⟩,
         ⟨"x", 1, 1, ⟨12, 500000⟩, .EndSync, "1", "H", "endA"⟩] =
      ("A", .error ⟨"A", 2, 1⟩) := by
  constructor
  · have h := (filter_to_duration_spec
      ⟨"A", fun t => strContains t.function "startA",
            fun t => strContains t.function "endA"⟩
      [⟨"x", 1, 1, ⟨10, 0⟩, .StartSync, "1", "H", "startA"⟩,
       ⟨"x", 1, 1, ⟨12, 500000⟩, .EndSync, "1", "H", "endA"⟩]
      (by intro t ht; fin_cases ht <;> exact ⟨by norm_num, by norm_num⟩)).1
      ⟨"x", 1, 1, ⟨10, 0⟩, .StartSync, "1", "H", "startA"⟩
      ⟨"x", 1, 1, ⟨12, 500000⟩, .EndSync, "1", "H", "endA"⟩
      (by decide) (by decide)
    rw [h]
    norm_num [tsMicro]
  · exact (filter_to_duration_spec _ _
      (by intro t ht; fin_cases ht <;> exact ⟨by norm_num, by norm_num⟩)).2
      (by decide)


/-! ## Claims C1 and C7: error handling of `read_file` -/

/-- A line is clean when the regex does not match it or its parse yields a
trace; a malformed matched line (parse error or panic) is not clean. -/
def lineIsClean (l : String) : Bool :=
  match line_to_trace l with
  | some (.failed _) => false
  | some (.panicked _) => false
  | _ => true

/-- The successfully parsed traces of a list of lines. -/
def parsedTraces (lines : List String) : List Trace :=
  lines.filterMap (fun l =>
    match line_to_trace l with
    | some (.parsed t) => some t
    | _ => none)

/-- On clean lines, the accumulator of `read_file` collects all parsed
traces. -/
theorem read_file_go_clean : ∀ (lines : List String) (acc : List Trace),
    (∀ l ∈ lines, lineIsClean l = true) →
    read_file_go lines acc = .ok (acc.reverse ++ parsedTraces lines) := by
  intro lines
  induction lines with
  | nil => intro acc _; simp [read_file_go, parsedTraces]
  | cons line rest ih =>
    intro acc hclean
    have hhead : lineIsClean line = true := hclean line (List.mem_cons_self line rest)
    have htail : ∀ l ∈ rest, lineIsClean l = true :=
      fun l hl => hclean l (List.mem_cons_of_mem line hl)
    cases h : line_to_trace line with
    | none =>
      rw [show read_file_go (line :: rest) acc = read_file_go rest acc by
        simp [read_file_go, h]]
      rw [ih acc htail]
      simp [parsedTraces, h]
    | some o =>
      cases o with
      | parsed t =>
        rw [show read_file_go (line :: rest) acc = read_file_go rest (t :: acc) by
          simp [read_file_go, h]]
        rw [ih (t :: acc) htail]
        simp [parsedTraces, h]
      | failed e => simp [lineIsClean, h] at hhead
      | panicked m => simp [lineIsClean, h] at hhead

/-- A single unclean line anywhere in the input makes the accumulated
outcome of `read_file` a non-`ok` value. -/
theorem read_file_go_dirty : ∀ (lines : List String) (acc : List Trace)
    (l : String), l ∈ lines → lineIsClean l = false →
    (read_file_go lines acc).isOk = false := by
  intro lines
  induction lines with
  | nil => intro acc l hl; simp at hl
  | cons line rest ih =>
    intro acc l hl hdirty
    cases h : line_to_trace line with
    | none =>
      rw [show read_file_go (line :: rest) acc = read_file_go rest acc by
        simp [read_file_go, h]]
      rcases List.mem_cons.mp hl with heq | hmem
      · subst heq; simp [lineIsClean, h] at hdirty
      · exact ih acc l hmem hdirty
    | some o =>
      cases o with
      | parsed t =>
        rw [show read_file_go (line :: rest) acc = read_file_go rest (t :: acc) by
          simp [read_file_go, h]]
        rcases List.mem_cons.mp hl with heq | hmem
        · subst heq; simp [lineIsClean, h] at hdirty
        · exact ih (t :: acc) l hmem hdirty
      | failed e =>
        rw [show read_file_go (line :: rest) acc = .failed e by
          simp [read_file_go, h]]
        rfl
      | panicked m =>
        rw [show read_file_go (line :: rest) acc = .panicked m by
          simp [read_file_go, h]]
        rfl

/-- Claim C1 (amended): `read_file` returns the collection of parsed
records only when no matched line is malformed; any single malformed
matched line (such as one whose marker character is outside
`{B,E,S,F,C}`) makes the whole file read fail — no union of successes and
no malformed-line-index diagnostics are produced. -/
theorem read_file_error_aggregation : ∀ lines : List String,
    ((∀ l ∈ lines, lineIsClean l = true) → read_file lines = .ok (parsedTraces lines)) ∧
    (∀ l ∈ lines, lineIsClean l = false → (read_file lines).isOk = false) := by
  intro lines
  constructor
  · intro hclean
    rw [read_file, read_file_go_clean lines [] hclean]
    simp
  · intro l hl hdirty
    exact read_file_go_dirty lines [] l hl hdirty

/-- A regex-matching trace line with a well-formed shape. -/
def goodLine : String := "a-1 (2)4.5: tracing_mark_write: B|6|H:x"

/-- A line matching the outer trace shape whose marker is the invalid
character `X`. -/
def badMarkerLine : String := "a-1 (2)4.5: tracing_mark_write: X|6|H:x"

/-- Counterexample for C1 as stated: `badMarkerLine` matches the outer
shape and has a bad marker, yet `read_file` on a file holding one good
line and this line returns the marker error for the whole file instead of
the collection `[trace of goodLine]` with diagnostics. -/
theorem read_file_error_aggregation_counterexample :
    (runCaptures TRACE_REGEX badMarkerLine).isSome = true ∧
    line_to_trace badMarkerLine = some (.failed "Could not parse Trace Marker") ∧
    line_to_trace goodLine =
      some (.parsed ⟨"a", 1, 2, ⟨4, 5⟩, .StartSync, "6", "H", "x"⟩) ∧
    read_file [goodLine, badMarkerLine] = .failed "Could not parse Trace Marker" := by
  refine ⟨by decide, by decide, by decide, by decide⟩

/-- Witness for C1 (amended) at concrete inputs. -/
theorem read_file_error_aggregation_witness :
    read_file [goodLine] = .ok (parsedTraces [goodLine]) ∧
    (read_file [goodLine, badMarkerLine]).isOk = false := by
  constructor
  · exact (read_file_error_aggregation [goodLine]).1 (by decide)
  · exact (read_file_error_aggregation [goodLine, badMarkerLine]).2 badMarkerLine
      (by simp) (by decide)

/-- A matched line whose seconds field does not fit in `u64`. -/
def badSecondsLine : String :=
  "a-1 (2)99999999999999999999.5: tracing_mark_write: B|6|H:x"

/-- A matched line whose pid field does not fit in `u64`. -/
def badPidLine : String :=
  "a-99999999999999999999 (2)4.5: tracing_mark_write: B|6|H:x"

/-- Claim C7 (amended): an integer field of a matched line that fails to
parse as `u64` is not a line-local recoverable failure.  A failing
seconds/microseconds field produces a returned error and a failing
pid/cpu field produces a panic, and either makes the whole `read_file`
outcome non-`ok` (the rest of the file is not collected). -/
theorem integer_field_failure_behavior :
    (∀ name pid cpu time1 time2 tm num sh msg : List Char,
      (parseU64 time1 = none →
        match_to_trace name pid cpu time1 time2 tm num sh msg =
          .failed "invalid integer (seconds)") ∧
      (∀ s1, parseU64 time1 = some s1 → parseU64 time2 = none →
        match_to_trace name pid cpu time1 time2 tm num sh msg =
          .failed "invalid integer (microseconds)") ∧
      (∀ s1 s2 mk, parseU64 time1 = some s1 → parseU64 time2 = some s2 →
        TraceMarker.fromStr tm = .ok mk → parseU64 pid = none →
        match_to_trace name pid cpu time1 time2 tm num sh msg =
          .panicked "pid parse unwrap")) ∧
    (∀ (lines : List String) (l : String), l ∈ lines → lineIsClean l = false →
      (read_file lines).isOk = false) := by
  constructor
  · intro name pid cpu time1 time2 tm num sh msg
    refine ⟨fun h1 => ?_, fun s1 h1 h2 => ?_, fun s1 s2 mk h1 h2 h3 h4 => ?_⟩
    · simp [match_to_trace, h1]
    · simp [match_to_trace, h1, h2]
    · simp [match_to_trace, h1, h2, h3, h4]
  · intro lines l hl hdirty
    exact read_file_go_dirty lines [] l hl hdirty

/-- Counterexample for C7 as stated: an unparsable seconds field is not
recorded as a line-local failure with the rest of the file still
processed — the whole read fails (and an unparsable pid field even
panics). -/
theorem integer_field_failure_counterexample :
    line_to_trace badSecondsLine = some (.failed "invalid integer (seconds)") ∧
    read_file [badSecondsLine, goodLine] = .failed "invalid integer (seconds)" ∧
    line_to_trace badPidLine = some (.panicked "pid parse unwrap") ∧
    read_file [badPidLine] = .panicked "pid parse unwrap" := by
  refine ⟨by decide, by decide, by decide, by decide⟩

/-- Witness for C7 (amended) at concrete inputs. -/
theorem integer_field_failure_witness :
    match_to_trace [] [] [] [] [] [] [] [] [] = .failed "invalid integer (seconds)" ∧
    match_to_trace [] [] [] ['4'] ['x'] [] [] [] [] =
      .failed "invalid integer (microseconds)" ∧
    match_to_trace [] [] [] ['4'] ['5'] ['B'] [] [] [] = .panicked "pid parse unwrap" ∧
    (read_file [badSecondsLine, goodLine]).isOk = false := by
  refine ⟨(integer_field_failure_behavior.1 [] [] [] [] [] [] [] [] []).1 (by decide),
    (integer_field_failure_behavior.1 [] [] [] ['4'] ['x'] [] [] [] []).2.1 4
      (by decide) (by decide),
    (integer_field_failure_behavior.1 [] [] [] ['4'] ['5'] ['B'] [] [] []).2.2 4 5
      .StartSync (by decide) (by decide) rfl (by decide),
    integer_field_failure_behavior.2 [badSecondsLine, goodLine] badSecondsLine
      (by simp) (by decide)⟩

/-! ## Claim C2: dispatch order -/

/-- A successful literal match pins the first character of the haystack. -/
theorem matchStrK_cons_head {c : Char} {cs l : List Char} {caps : Caps}
    {k : List Char → Caps → Option Caps} {res : Caps}
    (h : matchStrK (c :: cs) l caps k = some res) : l.head? = some c := by
  cases l with
  | nil => simp [matchStrK] at h
  | cons x xs =>
    simp only [matchStrK] at h
    by_cases hc : c = x
    · rw [List.head?_cons, hc]
    · rw [if_neg hc] at h
      exact absurd h (by simp)

/-- A successful alternation match comes from one of the branches. -/
theorem matchRE_alt_cases {r1 r2 : RE} {l : List Char} {caps : Caps}
    {k : List Char → Caps → Option Caps} {res : Caps}
    (h : matchRE (.alt r1 r2) l caps k = some res) :
    matchRE r1 l caps k = some res ∨ matchRE r2 l caps k = some res := by
  simp only [matchRE] at h
  cases ho : matchRE r1 l caps k with
  | none => right; rw [ho] at h; simpa [Option.orElse] using h
  | some v => left; rw [ho] at h; simpa [Option.orElse] using h

/-- The statically known first character a regex must consume, when every
way it can match starts with that same literal character. -/
def REfirst : RE → Option Char
  | .str (c :: _) => some c
  | .cat r1 _ => REfirst r1
  | .group _ r => REfirst r
  | .alt r1 r2 =>
    match REfirst r1, REfirst r2 with
    | some c1, some c2 => if c1 = c2 then some c1 else none
    | _, _ => none
  | _ => none

/-- A successful match of a regex with a known first character pins the
first character of the haystack. -/
theorem matchRE_first {r : RE} : ∀ {l : List Char} {caps : Caps}
    {k : List Char → Caps → Option Caps} {res : Caps} {c : Char},
    matchRE r l caps k = some res → REfirst r = some c → l.head? = some c := by
  induction r with
  | str s =>
    intro l caps k res c h hf
    cases s with
    | nil => simp [REfirst] at hf
    | cons c0 cs =>
      rw [show REfirst (.str (c0 :: cs)) = some c0 from rfl] at hf
      rw [← Option.some.inj hf]
      exact matchStrK_cons_head h
  | cls p => intro l caps k res c h hf; simp [REfirst] at hf
  | starG p => intro l caps k res c h hf; simp [REfirst] at hf
  | starL p => intro l caps k res c h hf; simp [REfirst] at hf
  | opt r ih => intro l caps k res c h hf; simp [REfirst] at hf
  | group n r ih =>
    intro l caps k res c h hf
    rw [show REfirst (.group n r) = REfirst r from rfl] at hf
    exact ih h hf
  | cat r1 r2 ih1 ih2 =>
    intro l caps k res c h hf
    rw [show REfirst (.cat r1 r2) = REfirst r1 from rfl] at hf
    simp only [matchRE] at h
    exact ih1 h hf
  | alt r1 r2 ih1 ih2 =>
    intro l caps k res c h hf
    rw [show REfirst (.alt r1 r2) =
      (match REfirst r1, REfirst r2 with
       | some c1, some c2 => if c1 = c2 then some c1 else none
       | _, _ => none) from rfl] at hf
    cases hf1 : REfirst r1 with
    | none => rw [hf1] at hf; simp at hf
    | some c1 =>
      cases hf2 : REfirst r2 with
      | none => rw [hf1, hf2] at hf; simp at hf
      | some c2 =>
        rw [hf1, hf2] at hf
        have hf9 : (if c1 = c2 then some c1 else none) = some c := hf
        by_cases hcc : c1 = c2
        · rw [if_pos hcc] at hf9
          cases Option.some.inj hf9
          rcases matchRE_alt_cases h with hb | hb
          · exact ih1 hb hf1
          · exact ih2 hb (by rw [hf2, hcc])
        · rw [if_neg hcc] at hf9
          exact absurd hf9 (by simp)
  | eos => intro l caps k res c h hf; simp [REfirst] at hf

/-- A capture run of a regex with known first character pins the first
character of the input string. -/
theorem runCaptures_head {re : RE} {s : String} {g : Caps} {c : Char}
    (h : runCaptures re s = some g) (hf : REfirst re = some c) :
    s.data.head? = some c := by
  unfold runCaptures at h
  exact matchRE_first h hf

/-- Two regexes demanding different first characters cannot both match. -/
theorem runCaptures_none_of_heads {re1 re2 : RE} {s : String} {g : Caps}
    {c1 c2 : Char} (h : runCaptures re1 s = some g)
    (hf1 : REfirst re1 = some c1) (hf2 : REfirst re2 = some c2)
    (hne : c1 ≠ c2) : runCaptures re2 s = none := by
  cases h2 : runCaptures re2 s with
  | none => rfl
  | some g2 =>
    have e1 := runCaptures_head h hf1
    have e2 := runCaptures_head h2 hf2
    rw [e1] at e2
    exact absurd (Option.some.inj e2) hne

/-- Claim C2: the dispatch of `filter_trace_to_option_point` is, for every
record, exactly the first-match-wins dispatch in the spec priority order
MemoryUrl, Smaps, MemoryReport, Testcase, LCP, FCP; in particular a
payload matched by the MemoryUrl or Smaps pattern is never classified by
the generic MemoryReport fallback.  (The source tests the LCP/FCP regexes
first, but their mandatory first characters make those patterns disjoint
from the four others, so the two orders agree on every input.) -/
theorem point_dispatch_priority_order (pf : PointFilter) (t : Trace)
    (rc : RunConfig) :
    filter_trace_to_option_point pf t rc = filter_trace_spec_order pf t rc := by
  unfold filter_trace_to_option_point filter_trace_spec_order
  cases hl : runCaptures LCP_REGEX t.function with
  | some g =>
    have hmu : runCaptures MEMORY_URL_REPORT_REGEX t.function = none :=
      runCaptures_none_of_heads hl rfl rfl (by decide)
    have hsm : runCaptures SMAPS_REGEX t.function = none :=
      runCaptures_none_of_heads hl rfl rfl (by decide)
    have hmr : runCaptures MEMORY_REPORT_REGEX t.function = none :=
      runCaptures_none_of_heads hl rfl rfl (by decide)
    have htc : runCaptures TESTCASE_REGEX t.function = none :=
      runCaptures_none_of_heads hl rfl rfl (by decide)
    rw [hmu, hsm, hmr, htc]
  | none =>
    cases hf : runCaptures FCP_REGEX t.function with
    | some g =>
      have hmu : runCaptures MEMORY_URL_REPORT_REGEX t.function = none :=
        runCaptures_none_of_heads hf rfl rfl (by decide)
      have hsm : runCaptures SMAPS_REGEX t.function = none :=
        runCaptures_none_of_heads hf rfl rfl (by decide)
      have hmr : runCaptures MEMORY_REPORT_REGEX t.function = none :=
        runCaptures_none_of_heads hf rfl rfl (by decide)
      have htc : runCaptures TESTCASE_REGEX t.function = none :=
        runCaptures_none_of_heads hf rfl rfl (by decide)
      rw [hmu, hsm, hmr, htc]
    | none =>
      cases hmu : runCaptures MEMORY_URL_REPORT_REGEX t.function with
      | some g => rfl
      | none =>
        cases hsm : runCaptures SMAPS_REGEX t.function with
        | some g => rfl
        | none =>
          cases hmr : runCaptures MEMORY_REPORT_REGEX t.function with
          | some g => rfl
          | none =>
            cases htc : runCaptures TESTCASE_REGEX t.function with
            | some g => rfl
            | none => rfl

/-! ## Claim C6: MemoryUrl acceptance and naming -/

/-- Claim C6 (amended): for a record matched by the MemoryUrl shape
`profiling:url(<url>)/<subpath> <value>`, a point is produced iff `<url>`
contains the configured target URL substring; the produced point carries
the matched value, and its derived name is the configured target URL, a
slash, the spec name, and the subpath segments after the first `/` of
`<subpath>`.  Dispatch routes such a record to `filter_memory_url` (never
to the generic MemoryReport fallback). -/
theorem memory_url_acceptance (pf : PointFilter) (rc : RunConfig) (t : Trace)
    (g : Caps) (whole url sub value : List Char) (v : Nat)
    (hcap : runCaptures MEMORY_URL_REPORT_REGEX t.function = some g)
    (hflat : capFlatten g 6 = [whole, url, sub, value])
    (hval : parseU64 value = some v) :
    (strContains (String.mk url) rc.url = false →
      filter_memory_url pf rc g t = .ok none) ∧
    (strContains (String.mk url) rc.url = true →
      filter_memory_url pf rc g t = .ok (some
        { name := rc.url ++ "/" ++ pf.name ++ memUrlSuffix (String.mk sub)
          no_unit_conversion := pf.no_unit_conversion
          point_type := .MemoryUrl v
          trace := some t })) ∧
    filter_trace_to_option_point pf t rc =
      (filter_memory_url pf rc g t).map (Option.map (fun p => [p])) := by
  have hlcp : runCaptures LCP_REGEX t.function = none :=
    runCaptures_none_of_heads hcap rfl rfl (by decide)
  have hfcp : runCaptures FCP_REGEX t.function = none :=
    runCaptures_none_of_heads hcap rfl rfl (by decide)
  refine ⟨fun hno => ?_, fun hyes => ?_, ?_⟩
  · simp only [filter_memory_url, hflat, hval, hno]
    simp
  · simp only [filter_memory_url, hflat, hval, hyes]
    simp
  · unfold filter_trace_to_option_point
    rw [hlcp, hfcp, hcap]

/-- The point filter of the C6 example. -/
def pf_url_w : PointFilter := ⟨"mem", "servo_memory_profiling", false, .Default⟩

/-- The run configuration of the C6 example. -/
def rc_url_w : RunConfig := ⟨"servo.org"⟩

/-- The trace of the C6 example (a MemoryUrl payload). -/
def t_url_w : Trace :=
  ⟨"t", 1, 1, ⟨1, 0⟩, .Dot, "1", "H",
    "servo_memory_profiling:url(https://servo.org/)/js/non-heap 262144"⟩

/-- The captures the MemoryUrl regex produces on `t_url_w`. -/
def caps_url_w : Caps :=
  [(0, "servo_memory_profiling:url(https://servo.org/)/js/non-heap 262144".data),
   (3, "262144".data), (2, "js/non-heap".data), (1, "https://servo.org/".data)]

/-- Counterexample for C6 as stated: the produced point's name is
`servo.org/mem/non-heap`, which does not start with the spec name `mem` -
the derived name is not the spec name plus subpath segments, because the
configured target URL and a slash are prepended. -/
theorem memory_url_name_counterexample :
    filter_memory_url pf_url_w rc_url_w caps_url_w t_url_w =
      .ok (some ⟨"servo.org/mem/non-heap", false, .MemoryUrl 262144, some t_url_w⟩) ∧
    listPrefixB "mem".data "servo.org/mem/non-heap".data = false := by
  refine ⟨by rfl, by decide⟩

/-- Witness for C6 (amended) at the concrete example: the URL matches the
target, a point is produced with the amended name, and the rejection
branch fires on a non-matching target. -/
theorem memory_url_acceptance_witness :
    filter_memory_url pf_url_w rc_url_w caps_url_w t_url_w =
      .ok (some ⟨"servo.org/mem/non-heap", false, .MemoryUrl 262144, some t_url_w⟩) ∧
    filter_trace_to_option_point pf_url_w t_url_w rc_url_w =
      .ok (some [⟨"servo.org/mem/non-heap", false, .MemoryUrl 262144, some t_url_w⟩]) ∧
    filter_memory_url pf_url_w ⟨"example.com"⟩ caps_url_w t_url_w = .ok none := by
  have h := memory_url_acceptance pf_url_w rc_url_w t_url_w caps_url_w
    "servo_memory_profiling:url(https://servo.org/)/js/non-heap 262144".data
    "https://servo.org/".data "js/non-heap".data "262144".data 262144
    (by rfl) (by rfl) (by rfl)
  have h2 := memory_url_acceptance pf_url_w ⟨"example.com"⟩ t_url_w caps_url_w
    "servo_memory_profiling:url(https://servo.org/)/js/non-heap 262144".data
    "https://servo.org/".data "js/non-heap".data "262144".data 262144
    (by rfl) (by rfl) (by rfl)
  refine ⟨?_, ?_, h2.1 (by rfl)⟩
  · rw [h.2.1 (by rfl)]
    rfl
  · rw [h.2.2, h.2.1 (by rfl)]
    rfl

/-! ## Claim C8: LCP/FCP extraction -/

/-- Claim C8: the wrapped-instant parser extracts
`paint_time = 231277222481376` and `area = 4095` from the spec's example
fragment, and for every key=value payload of that shape an LCP match emits
exactly two points (paint_time and area) while an FCP match emits exactly
one (paint_time). -/
theorem lcp_fcp_point_emission :
    (parse_lcp_trace
        "paint_time=CrossProcessInstant \x7b value: 231277222481376 \x7d,area=4095" =
      .ok (some ⟨231277222481376, 4095⟩)) ∧
    (∀ (pf : PointFilter) (rc : RunConfig) (g : Caps) (t : Trace)
        (whole fname kv : List Char),
      capFlatten g 2 = [whole, fname, kv] →
      (String.mk fname = "LargestContentfulPaint" →
        ∀ v, parse_lcp_trace (String.mk kv) = .ok (some v) →
        filter_lcp_or_fcp pf rc g t = .ok (some
          [⟨rc.url ++ "/" ++ pf.name ++ "/paint_time", pf.no_unit_conversion,
            .LargestContentfulPaint v.paint_time, some t⟩,
           ⟨rc.url ++ "/" ++ pf.name ++ "/area", pf.no_unit_conversion,
            .LargestContentfulPaint v.area, some t⟩])) ∧
      (String.mk fname = "FirstContentfulPaint" →
        ∀ v, parse_fcp_trace (String.mk kv) = .ok (some v) →
        filter_lcp_or_fcp pf rc g t = .ok (some
          [⟨rc.url ++ "/" ++ pf.name ++ "/paint_time", pf.no_unit_conversion,
            .LargestContentfulPaint v.paint_time, some t⟩]))) := by
  refine ⟨by rfl, ?_⟩
  intro pf rc g t whole fname kv hflat
  constructor
  · intro hname v hv
    simp only [filter_lcp_or_fcp, hflat]
    rw [hname, if_pos rfl, hv]
  · intro hname v hv
    simp only [filter_lcp_or_fcp, hflat]
    rw [hname, if_neg (by decide), if_pos rfl, hv]

/-- The key=value payload of the LCP example. -/
def kv_lcp_w : String :=
  "paint_time=CrossProcessInstant \x7b value: 231277222481376 \x7d,area=4095"

/-- The key=value payload of the FCP example. -/
def kv_fcp_w : String :=
  "epoch=Epoch(1),paint_time=CrossProcessInstant \x7b value: 271633800350218 \x7d,pipeline_id=(1,1)"

/-- The captures the LCP regex produces on the example line. -/
def caps_lcp_w : Caps :=
  [(0, ("LargestContentfulPaint|H|" ++ kv_lcp_w).data),
   (2, kv_lcp_w.data), (1, "LargestContentfulPaint".data)]

/-- The captures the FCP regex produces on the example line. -/
def caps_fcp_w : Caps :=
  [(0, ("FirstContentfulPaint|H|" ++ kv_fcp_w).data),
   (2, kv_fcp_w.data), (1, "FirstContentfulPaint".data)]

/-- The trace of the C8 LCP example. -/
def t_lcp_w : Trace :=
  ⟨"t", 1, 1, ⟨1, 0⟩, .Dot, "1", "H", "LargestContentfulPaint|H|" ++ kv_lcp_w⟩

/-- The trace of the C8 FCP example. -/
def t_fcp_w : Trace :=
  ⟨"t", 1, 1, ⟨1, 0⟩, .Dot, "1", "H", "FirstContentfulPaint|H|" ++ kv_fcp_w⟩

/-- Witness for C8 at the example payloads: two points for the LCP match,
one for the FCP match. -/
theorem lcp_fcp_point_emission_witness :
    filter_lcp_or_fcp ⟨"LCP", "L", true, .Largest⟩ ⟨"u"⟩ caps_lcp_w t_lcp_w =
      .ok (some
        [⟨"u/LCP/paint_time", true, .LargestContentfulPaint 231277222481376, some t_lcp_w⟩,
         ⟨"u/LCP/area", true, .LargestContentfulPaint 4095, some t_lcp_w⟩]) ∧
    filter_lcp_or_fcp ⟨"FCP", "F", true, .Default⟩ ⟨"u"⟩ caps_fcp_w t_fcp_w =
      .ok (some
        [⟨"u/FCP/paint_time", true, .LargestContentfulPaint 271633800350218, some t_fcp_w⟩]) := by
  constructor
  · rw [(lcp_fcp_point_emission.2 ⟨"LCP", "L", true, .Largest⟩ ⟨"u"⟩ caps_lcp_w t_lcp_w
      ("LargestContentfulPaint|H|" ++ kv_lcp_w).data "LargestContentfulPaint".data
      kv_lcp_w.data (by rfl)).1 rfl ⟨231277222481376, 4095⟩ (by rfl)]
    rfl
  · rw [(lcp_fcp_point_emission.2 ⟨"FCP", "F", true, .Default⟩ ⟨"u"⟩ caps_fcp_w t_fcp_w
      ("FirstContentfulPaint|H|" ++ kv_fcp_w).data "FirstContentfulPaint".data
      kv_fcp_w.data (by rfl)).2 rfl ⟨271633800350218⟩ (by rfl)]
    rfl

/-! ## Claim C4: Default-policy duplicate rejection -/

/-- Filtering by a predicate after keeping only its complement is empty. -/
theorem filter_not_self (q : Point → Bool) (pts : List Point) :
    (pts.filter (fun p => !q p)).filter (fun p => q p) = [] := by
  induction pts with
  | nil => rfl
  | cons p rest ih => by_cases h : q p <;> simp [h, ih]

/-- A `MemoryReport` point is not a `Testcase` point. -/
theorem mr_not_tc (pt : PointType) (h : pt.isMemoryReport = true) :
    pt.isTestcase = false := by
  cases pt <;> simp_all [PointType.isMemoryReport, PointType.isTestcase]

/-- Dropping the `Testcase` points leaves the `MemoryReport` points
unchanged. -/
theorem filter_mr_after_drop_tc (pts : List Point) :
    ((pts.filter (fun p => !p.point_type.isTestcase)).filter
        (fun p => p.point_type.isMemoryReport)) =
      pts.filter (fun p => p.point_type.isMemoryReport) := by
  induction pts with
  | nil => rfl
  | cons p rest ih =>
    by_cases hq : p.point_type.isMemoryReport
    · have hr : p.point_type.isTestcase = false := mr_not_tc _ hq
      simp [hq, hr, ih]
    · by_cases hr : p.point_type.isTestcase <;> simp [hq, hr, ih]

/-- Claim C4: under the `Default` policy, if the extracted points contain
more than one `Testcase` point or more than one `MemoryReport` point,
every point of that kind is dropped from the result of
`pointfilter_to_point` — zero points of that kind are returned — and one
error naming the filter and the offending records' traces is logged per
offending kind. -/
theorem default_duplicate_rejection (pf : PointFilter) (rc : RunConfig)
    (traces : List Trace) (pts : List Point)
    (hdef : pf.point_filter_type = PointFilterType.Default)
    (hpts : collectPoints pf rc (preFilter pf traces) = .ok pts) :
    pointfilter_to_point pf traces rc = .ok (remove_duplicates pf pts) ∧
    (1 < (pts.filter (fun p => p.point_type.isTestcase)).length →
      ((remove_duplicates pf pts).1.filter (fun p => p.point_type.isTestcase)) = [] ∧
      LogEntry.mk pf (pts.filterMap (fun p => p.trace)) ∈ (remove_duplicates pf pts).2) ∧
    (1 < (pts.filter (fun p => p.point_type.isMemoryReport)).length →
      ((remove_duplicates pf pts).1.filter (fun p => p.point_type.isMemoryReport)) = [] ∧
      ∃ e ∈ (remove_duplicates pf pts).2, e.point_filter = pf ∧
        ∀ p ∈ pts, p.point_type.isMemoryReport = true →
          ∀ tr, p.trace = some tr → tr ∈ e.traces) ∧
    ((remove_duplicates pf pts).2.length =
      (if 1 < (pts.filter (fun p => p.point_type.isTestcase)).length then 1 else 0) +
      (if 1 < (pts.filter (fun p => p.point_type.isMemoryReport)).length then 1 else 0)) := by
  have hmain : pointfilter_to_point pf traces rc = .ok (remove_duplicates pf pts) := by
    unfold pointfilter_to_point
    rw [hpts]
    show (if pf.point_filter_type ≠ PointFilterType.Default
        then Except.map (fun res => (res, [])) (groupCombine pf pts)
        else Except.ok (remove_duplicates pf pts)) = Except.ok (remove_duplicates pf pts)
    rw [if_neg (by simp [hdef])]
  by_cases htd : 1 < (pts.filter (fun p => p.point_type.isTestcase)).length
  · have hstep1 : drop_dup_kind pf PointType.isTestcase (pts, []) =
        (pts.filter (fun p => !p.point_type.isTestcase),
         [LogEntry.mk pf (pts.filterMap (fun p => p.trace))]) := by
      unfold drop_dup_kind
      rw [if_pos htd]
      rfl
    by_cases hmd : 1 < (pts.filter (fun p => p.point_type.isMemoryReport)).length
    · have hrd : remove_duplicates pf pts =
          (((pts.filter (fun p => !p.point_type.isTestcase)).filter
              (fun p => !p.point_type.isMemoryReport)),
           [LogEntry.mk pf (pts.filterMap (fun p => p.trace)),
            LogEntry.mk pf ((pts.filter (fun p => !p.point_type.isTestcase)).filterMap
              (fun p => p.trace))]) := by
        unfold remove_duplicates
        rw [hstep1]
        unfold drop_dup_kind
        rw [if_pos (by rw [filter_mr_after_drop_tc]; exact hmd)]
        rfl
      refine ⟨hmain, fun _ => ⟨?_, ?_⟩, fun _ => ⟨?_, ?_⟩, ?_⟩
      · rw [hrd]
        have h1 := filter_not_self (fun p => p.point_type.isTestcase) pts
        calc (((pts.filter (fun p => !p.point_type.isTestcase)).filter
                (fun p => !p.point_type.isMemoryReport)).filter
                (fun p => p.point_type.isTestcase))
            = (((pts.filter (fun p => !p.point_type.isTestcase)).filter
                (fun p => p.point_type.isTestcase)).filter
                (fun p => !p.point_type.isMemoryReport)) := by
              rw [List.filter_comm]
          _ = [] := by rw [h1]; rfl
      · rw [hrd]; simp
      · rw [hrd]
        exact filter_not_self (fun p => p.point_type.isMemoryReport) _
      · rw [hrd]
        refine ⟨LogEntry.mk pf ((pts.filter (fun p => !p.point_type.isTestcase)).filterMap
          (fun p => p.trace)), by simp, rfl, ?_⟩
        intro p hp hmr tr htr
        exact List.mem_filterMap.mpr
          ⟨p, List.mem_filter.mpr ⟨hp, by rw [mr_not_tc _ hmr]; rfl⟩, htr⟩
      · rw [hrd, if_pos htd, if_pos hmd]
        rfl
    · have hrd : remove_duplicates pf pts =
          (pts.filter (fun p => !p.point_type.isTestcase),
           [LogEntry.mk pf (pts.filterMap (fun p => p.trace))]) := by
        unfold remove_duplicates
        rw [hstep1]
        unfold drop_dup_kind
        rw [if_neg (by rw [filter_mr_after_drop_tc]; exact hmd)]
      refine ⟨hmain, fun _ => ⟨?_, ?_⟩, fun hc => absurd hc hmd, ?_⟩
      · rw [hrd]
        exact filter_not_self (fun p => p.point_type.isTestcase) pts
      · rw [hrd]; simp
      · rw [hrd, if_pos htd, if_neg hmd]
        rfl
  · have hstep1 : drop_dup_kind pf PointType.isTestcase (pts, []) = (pts, []) := by
      unfold drop_dup_kind
      rw [if_neg htd]
    by_cases hmd : 1 < (pts.filter (fun p => p.point_type.isMemoryReport)).length
    · have hrd : remove_duplicates pf pts =
          (pts.filter (fun p => !p.point_type.isMemoryReport),
           [LogEntry.mk pf (pts.filterMap (fun p => p.trace))]) := by
        unfold remove_duplicates
        rw [hstep1]
        unfold drop_dup_kind
        rw [if_pos hmd]
        rfl
      refine ⟨hmain, fun hc => absurd hc htd, fun _ => ⟨?_, ?_⟩, ?_⟩
      · rw [hrd]
        exact filter_not_self (fun p => p.point_type.isMemoryReport) pts
      · rw [hrd]
        refine ⟨LogEntry.mk pf (pts.filterMap (fun p => p.trace)), by simp, rfl, ?_⟩
        intro p hp hmr tr htr
        exact List.mem_filterMap.mpr ⟨p, hp, htr⟩
      · rw [hrd, if_neg htd, if_pos hmd]
        rfl
    · have hrd : remove_duplicates pf pts = (pts, []) := by
        unfold remove_duplicates
        rw [hstep1]
        unfold drop_dup_kind
        rw [if_neg hmd]
      exact ⟨hmain, fun hc => absurd hc htd, fun hc => absurd hc hmd, by
        rw [hrd, if_neg htd, if_neg hmd]
        rfl⟩

/-- The point filter of the C4 example. -/
def pf_dup_w : PointFilter := ⟨"res", "resident", false, .Default⟩

/-- Two traces carrying duplicate generic memory reports. -/
def traces_dup_w : List Trace :=
  [⟨"t", 1, 1, ⟨1, 0⟩, .Dot, "1", "H", "servo_memory_profiling:resident 1"⟩,
   ⟨"t", 1, 1, ⟨2, 0⟩, .Dot, "1", "H", "servo_memory_profiling:resident 2"⟩]

/-- The two MemoryReport points extracted from `traces_dup_w`. -/
def pts_dup_w : List Point :=
  [⟨"u/res", false, .MemoryReport 1,
    some ⟨"t", 1, 1, ⟨1, 0⟩, .Dot, "1", "H", "servo_memory_profiling:resident 1"⟩⟩,
   ⟨"u/res", false, .MemoryReport 2,
    some ⟨"t", 1, 1, ⟨2, 0⟩, .Dot, "1", "H", "servo_memory_profiling:resident 2"⟩⟩]

/-- Witness for C4 at the concrete example of the spec: two
MemoryReport-classified records with the same derived name under the
`Default` policy yield zero points and exactly one logged error. -/
theorem default_duplicate_rejection_witness :
    pointfilter_to_point pf_dup_w traces_dup_w ⟨"u"⟩ =
      .ok (remove_duplicates pf_dup_w pts_dup_w) ∧
    (remove_duplicates pf_dup_w pts_dup_w).1.filter
      (fun p => p.point_type.isMemoryReport) = [] ∧
    (remove_duplicates pf_dup_w pts_dup_w).1 = [] ∧
    (remove_duplicates pf_dup_w pts_dup_w).2.length = 1 := by
  have h := default_duplicate_rejection pf_dup_w ⟨"u"⟩ traces_dup_w pts_dup_w rfl (by rfl)
  refine ⟨h.1, (h.2.2.1 (by decide)).1, by decide, ?_⟩
  rw [h.2.2.2]
  decide

/-! ## Claim C5: Combined and Largest policies -/

/-- A successful `mapM` over `Except` relates inputs and outputs pointwise. -/
theorem mapM_ok_forall₂ {α β ε : Type} (f : α → Except ε β) :
    ∀ (l : List α) (res : List β), l.mapM f = .ok res →
      List.Forall₂ (fun a b => f a = .ok b) l res := by
  intro l
  induction l with
  | nil =>
    intro res h
    rw [List.mapM_nil] at h
    cases h
    exact .nil
  | cons a rest ih =>
    intro res h
    rw [List.mapM_cons] at h
    cases hfa : f a with
    | error e => rw [hfa] at h; exact absurd h (by simp [Bind.bind, Except.bind])
    | ok b =>
      rw [hfa] at h
      cases hml : rest.mapM f with
      | error e =>
        rw [hml] at h
        exact absurd h (by simp [Bind.bind, Except.bind])
      | ok bs =>
        rw [hml] at h
        have hres : res = b :: bs := by
          have h2 : (Except.ok (b :: bs) : Except ε (List β)) = .ok res := h
          exact (Except.ok.inj h2).symm
        rw [hres]
        exact .cons hfa (ih bs hml)

/-- Membership in `group_map_by` determines the group contents. -/
theorem group_map_by_mem {pts : List Point} {n : String} {vals : List Point}
    (h : (n, vals) ∈ group_map_by pts) :
    vals = pts.filter (fun p => p.name == n) ∧
      n ∈ (pts.map (fun p => p.name)).dedup := by
  unfold group_map_by at h
  obtain ⟨k, hk, heq⟩ := List.mem_map.mp h
  have h1 : k = n := congrArg Prod.fst heq
  subst h1
  have h2 : pts.filter (fun p => p.name == k) = vals := congrArg Prod.snd heq
  exact ⟨h2.symm, hk⟩

/-- All points of a group carry the group key as name. -/
theorem group_vals_name {pts : List Point} {n : String} {vals : List Point}
    (h : (n, vals) ∈ group_map_by pts) : ∀ p ∈ vals, p.name = n := by
  intro p hp
  rw [(group_map_by_mem h).1] at hp
  exact eq_of_beq (List.mem_filter.mp hp).2

/-- The replacement point of a group keeps the group key as its name. -/
theorem replGroup_name {pf : PointFilter} {n : String} {vals : List Point}
    {q : Point} (hv : ∀ p ∈ vals, p.name = n)
    (h : replGroup pf (n, vals) = .ok q) : q.name = n := by
  cases vals with
  | nil => exact absurd h (by simp [replGroup])
  | cons p0 t =>
    cases t with
    | nil =>
      have hq : p0 = q := Except.ok.inj h
      rw [← hq]
      exact hv p0 (by simp)
    | cons p1 t2 =>
      rw [show replGroup pf (n, p0 :: p1 :: t2) =
        (match pf.point_filter_type with
         | .Largest =>
           match ((p0 :: p1 :: t2).map numValue).max? with
           | none => .error "unwrap on empty max"
           | some m =>
             .ok ⟨n, p0.no_unit_conversion, .LargestContentfulPaint m, none⟩
         | .Combined =>
           .ok ⟨n, p0.no_unit_conversion,
             .Combined (((p0 :: p1 :: t2).map numValue).sum % 2 ^ 64), none⟩
         | .Default => .error "should not be reachable") from rfl] at h
      cases hty : pf.point_filter_type with
      | Largest =>
        rw [hty] at h
        cases hmx : ((p0 :: p1 :: t2).map numValue).max? with
        | none => rw [hmx] at h; exact absurd h (by simp)
        | some m =>
          rw [hmx] at h
          rw [← Except.ok.inj h]
      | Combined =>
        rw [hty] at h
        rw [← Except.ok.inj h]
      | Default =>
        rw [hty] at h
        exact absurd h (by simp)

/-- Results of groups whose keys differ from `n` contribute nothing to the
`n`-filtered output. -/
theorem forall₂_filter_none {pf : PointFilter} :
    ∀ (groups : List (String × List Point)) (res : List Point),
      List.Forall₂ (fun g q => replGroup pf g = .ok q) groups res →
      (∀ g ∈ groups, ∀ p ∈ g.2, p.name = g.1) →
      ∀ n, n ∉ groups.map Prod.fst →
        res.filter (fun p => p.name == n) = [] := by
  intro groups res hf
  induction hf with
  | nil => intro _ n _; rfl
  | @cons a b l1 l2 hgq hrest ih =>
    intro hnames n hn
    have hb : b.name = a.1 :=
      replGroup_name (hnames a (List.mem_cons_self a l1)) hgq
    have hne : ¬ (a.1 = n) := by
      intro hc
      exact hn (by rw [List.map_cons, hc]; exact List.mem_cons_self n _)
    have hbeq : (b.name == n) = false := by
      rw [hb]
      exact beq_false_of_ne hne
    rw [List.filter_cons_of_neg (by rw [hbeq]; exact Bool.false_ne_true)]
    exact ih (fun g hg => hnames g (List.mem_cons_of_mem a hg)) n
      (fun hc => hn (by rw [List.map_cons]; exact List.mem_cons_of_mem _ hc))

/-- The `n`-group's replacement is the unique point named `n` in the
output of a successful grouped `mapM`. -/
theorem forall₂_filter_name {pf : PointFilter} :
    ∀ (groups : List (String × List Point)) (res : List Point),
      List.Forall₂ (fun g q => replGroup pf g = .ok q) groups res →
      (∀ g ∈ groups, ∀ p ∈ g.2, p.name = g.1) →
      (groups.map Prod.fst).Nodup →
      ∀ n vals q, (n, vals) ∈ groups → replGroup pf (n, vals) = .ok q →
        res.filter (fun p => p.name == n) = [q] := by
  intro groups res hf
  induction hf with
  | nil => intro _ _ n vals q hmem _; exact absurd hmem (by simp)
  | @cons a b l1 l2 hgq hrest ih =>
    intro hnames hnodup n vals q hmem hq
    have hnames1 : ∀ g ∈ l1, ∀ p ∈ g.2, p.name = g.1 :=
      fun g hg => hnames g (List.mem_cons_of_mem a hg)
    rcases List.mem_cons.mp hmem with heq | hmem2
    · have ha : a = (n, vals) := heq.symm
      subst ha
      have hqb : b = q := by
        rw [hgq] at hq
        exact Except.ok.inj hq
      have hbn : b.name = n :=
        replGroup_name (hnames (n, vals) (List.mem_cons_self _ l1)) hgq
      rw [List.filter_cons_of_pos (by rw [hbn]; simp)]
      have hnd := List.nodup_cons.mp hnodup
      rw [forall₂_filter_none l1 l2 hrest hnames1 n hnd.1]
      rw [hqb]
    · have hb : b.name = a.1 :=
        replGroup_name (hnames a (List.mem_cons_self a l1)) hgq
      have hna : n ∈ l1.map Prod.fst :=
        List.mem_map.mpr ⟨(n, vals), hmem2, rfl⟩
      have hne : ¬ (a.1 = n) := by
        intro hc
        rw [List.map_cons, hc] at hnodup
        exact (List.nodup_cons.mp hnodup).1 hna
      have hnd := List.nodup_cons.mp hnodup
      rw [List.filter_cons_of_neg
        (by rw [hb, beq_false_of_ne hne]; exact Bool.false_ne_true)]
      exact ih hnames1 hnd.2 n vals q hmem2 hq

/-- Claim C5: under the `Combined` policy every name group with more than
one member is replaced by a single `Combined` point whose value is the sum
of the group's values (at `u64` width), and under the `Largest` policy by
a single point tagged `LargestContentfulPaint` whose value is the group's
maximum, regardless of the origin kind of the grouped points. -/
theorem combined_and_largest_grouping (pf : PointFilter) (pts res : List Point)
    (n : String) (vals : List Point) (p0 : Point) (m : Nat)
    (hres : groupCombine pf pts = .ok res)
    (hgrp : (n, vals) ∈ group_map_by pts)
    (hlen : 1 < vals.length)
    (hhead : vals.head? = some p0)
    (hmax : (vals.map numValue).max? = some m) :
    (pf.point_filter_type = .Combined →
      res.filter (fun p => p.name == n) =
        [⟨n, p0.no_unit_conversion, .Combined ((vals.map numValue).sum % 2 ^ 64),
          none⟩]) ∧
    (pf.point_filter_type = .Largest →
      res.filter (fun p => p.name == n) =
        [⟨n, p0.no_unit_conversion, .LargestContentfulPaint m, none⟩]) := by
  unfold groupCombine at hres
  have hf := mapM_ok_forall₂ (replGroup pf) (group_map_by pts) res hres
  have hnames : ∀ g ∈ group_map_by pts, ∀ p ∈ g.2, p.name = g.1 :=
    fun g hg => group_vals_name hg
  have hkeys : (group_map_by pts).map Prod.fst = (pts.map (fun p => p.name)).dedup := by
    unfold group_map_by
    rw [List.map_map]
    exact List.map_id ((pts.map (fun p => p.name)).dedup)
  have hnodup : ((group_map_by pts).map Prod.fst).Nodup := by
    rw [hkeys]
    exact List.nodup_dedup _
  obtain ⟨p1, rest, hvals⟩ : ∃ p1 rest, vals = p0 :: p1 :: rest := by
    cases vals with
    | nil => exact absurd hhead (by simp)
    | cons a t =>
      cases t with
      | nil => exact absurd hlen (by simp)
      | cons b t2 =>
        exact ⟨b, t2, by rw [Option.some.inj hhead]⟩
  constructor
  · intro hty
    have hrg : replGroup pf (n, vals) =
        .ok ⟨n, p0.no_unit_conversion, .Combined ((vals.map numValue).sum % 2 ^ 64),
          none⟩ := by
      subst hvals
      simp [replGroup, hty]
    exact forall₂_filter_name _ _ hf hnames hnodup n vals _ hgrp hrg
  · intro hty
    have hrg : replGroup pf (n, vals) =
        .ok ⟨n, p0.no_unit_conversion, .LargestContentfulPaint m, none⟩ := by
      subst hvals
      rw [show replGroup pf (n, p0 :: p1 :: rest) =
        (match pf.point_filter_type with
         | .Largest =>
           match ((p0 :: p1 :: rest).map numValue).max? with
           | none => .error "unwrap on empty max"
           | some m2 =>
             .ok ⟨n, p0.no_unit_conversion, .LargestContentfulPaint m2, none⟩
         | .Combined =>
           .ok ⟨n, p0.no_unit_conversion,
             .Combined (((p0 :: p1 :: rest).map numValue).sum % 2 ^ 64), none⟩
         | .Default => .error "should not be reachable") from rfl]
      rw [hty]
      show (match ((p0 :: p1 :: rest).map numValue).max? with
            | none => (Except.error "unwrap on empty max" : Except String Point)
            | some m2 =>
              Except.ok (Point.mk n p0.no_unit_conversion
                (.LargestContentfulPaint m2) none)) =
        Except.ok (Point.mk n p0.no_unit_conversion (.LargestContentfulPaint m) none)
      rw [hmax]
    exact forall₂_filter_name _ _ hf hnames hnodup n vals _ hgrp hrg

/-- The three equally named points of the spec's combination example. -/
def pts_js_w : List Point :=
  [⟨"JS", false, .Testcase 10, none⟩, ⟨"JS", false, .Testcase 20, none⟩,
   ⟨"JS", false, .Testcase 5, none⟩]

/-- Witness for C5 at the spec's example: three points named `JS` with
values 10, 20, 5 reduce to one `Combined` point of value 35 under the
`Combined` policy and to one `LargestContentfulPaint` point of value 20
under the `Largest` policy. -/
theorem combined_and_largest_grouping_witness :
    groupCombine ⟨"c", "x", false, .Combined⟩ pts_js_w =
      .ok [⟨"JS", false, .Combined 35, none⟩] ∧
    ([⟨"JS", false, .Combined 35, none⟩] : List Point).filter
      (fun p => p.name == "JS") = [⟨"JS", false, .Combined 35, none⟩] ∧
    groupCombine ⟨"c", "x", false, .Largest⟩ pts_js_w =
      .ok [⟨"JS", false, .LargestContentfulPaint 20, none⟩] ∧
    ([⟨"JS", false, .LargestContentfulPaint 20, none⟩] : List Point).filter
      (fun p => p.name == "JS") = [⟨"JS", false, .LargestContentfulPaint 20, none⟩] := by
  refine ⟨by rfl, ?_, by rfl, ?_⟩
  · have h := (combined_and_largest_grouping ⟨"c", "x", false, .Combined⟩ pts_js_w
      [⟨"JS", false, .Combined 35, none⟩] "JS" pts_js_w ⟨"JS", false, .Testcase 10, none⟩
      20 (by rfl) (by decide) (by decide) (by decide) (by decide)).1 rfl
    rw [h]
    decide
  · have h := (combined_and_largest_grouping ⟨"c", "x", false, .Largest⟩ pts_js_w
      [⟨"JS", false, .LargestContentfulPaint 20, none⟩] "JS" pts_js_w
      ⟨"JS", false, .Testcase 10, none⟩ 20
      (by rfl) (by decide) (by decide) (by decide) (by decide)).2 rfl
    rw [h]

end HitraceBench
